import Mathlib

/-!
Verification development for the includium C preprocessor (Rust).

The definitions below are a shallow embedding of the crate that is compiled
into the library: `lib.rs` declares the modules `driver`, `engine`, `context`,
`token`, `macro_def`, `config`, `error`, and the public entry point
`includium::process` runs `PreprocessorDriver::process` (driver.rs), which
delegates the pure helpers to engine.rs and keeps its state in
`PreprocessorContext` (context.rs).  The file `preprocessor.rs` in the source
tree is not listed in `lib.rs` and is therefore dead code; where its behaviour
differs from driver.rs/engine.rs this development follows the compiled path.

Conventions of the embedding:
- Rust `String`/`&str` values are `List Char`.
- Rust `HashMap`/`HashSet` are association lists / lists used as sets; only
  insert, remove and membership are ever used by the source, so the order of
  entries is unobservable.
- `Vec` stacks (`include_stack`, `conditional_stack`) keep the most recently
  pushed element at the HEAD of the Lean list (Rust keeps it at the end);
  only push, pop, last and membership are used, so this is a faithful
  renaming of positions.
- Rust `i64` arithmetic is `Int` with an explicit wrap to 64 bits where the
  source can overflow; `/` and `%` are truncated division as in Rust.
- Every fallible Rust function returning `Result` becomes a function
  returning `Except PErr _`; `&mut self` state is threaded explicitly, so a
  function that mutates the context returns `Except PErr A × Context` and the
  context component is meaningful on the error path too, exactly like the
  mutations left behind by an early `return Err(..)` in Rust.
- The mutually recursive expander/driver functions take a `fuel : Nat`
  argument that is decremented on every call; this is an embedding artifact
  used only to establish termination in Lean.  Rust recursion is bounded by
  `recursion_limit` and the input size; all theorems below instantiate the
  fuel large enough that the fuel-exhaustion branch is never taken.
- Unicode classification functions (`char::is_whitespace`,
  `char::is_alphanumeric`) are modelled on their ASCII fragment; every input
  appearing in a theorem is ASCII.
-/

deriving instance DecidableEq for Except

namespace Includium

/-- Rust `char::is_whitespace`, restricted to its ASCII fragment. -/
def rustIsWhitespace (c : Char) : Bool :=
  c == ' ' || c == '\t' || c == '\n' || c == '\r' || c == '\x0B' || c == '\x0C'

/-- Rust `char::is_alphanumeric`, restricted to its ASCII fragment. -/
def rustIsAlphanumeric (c : Char) : Bool :=
  c.isAlpha || c.isDigit

/-- token.rs `is_identifier_start`: letter or underscore. -/
def isIdentifierStart (c : Char) : Bool :=
  c.isAlpha || c == '_'

/-- token.rs `is_identifier_continue`: letter, digit, or underscore. -/
def isIdentifierContinue (c : Char) : Bool :=
  c.isAlpha || c.isDigit || c == '_'

/-- Rust `str::trim_start` (ASCII whitespace fragment). -/
def trimStart (cs : List Char) : List Char :=
  cs.dropWhile rustIsWhitespace

/-- Rust `str::trim_end` (ASCII whitespace fragment). -/
def trimEnd (cs : List Char) : List Char :=
  (cs.reverse.dropWhile rustIsWhitespace).reverse

/-- Rust `str::trim` (ASCII whitespace fragment). -/
def trimBoth (cs : List Char) : List Char :=
  trimEnd (trimStart cs)

/-- Rust `str::starts_with` for a string pattern. -/
def startsWithS (cs pat : List Char) : Bool :=
  pat.isPrefixOf cs

/-- Rust `str::contains` for a string pattern (substring occurrence). -/
def containsSubstr (hay needle : List Char) : Bool :=
  if needle.isPrefixOf hay then true
  else
    match hay with
    | [] => false
    | _ :: t => containsSubstr t needle

/-- Rust `str::find` for a string pattern: index of the first occurrence. -/
def findSubstr (hay needle : List Char) : Option Nat :=
  if needle.isPrefixOf hay then some 0
  else
    match hay with
    | [] => none
    | _ :: t => (findSubstr t needle).map (· + 1)

/-- Rust `str::find(char)`: index of the first occurrence of a character. -/
def findChr (cs : List Char) (c : Char) : Option Nat :=
  cs.findIdx? (· == c)

/-- Rust `str::split_whitespace`: maximal non-whitespace runs, no empties. -/
def splitWsGo (fuel : Nat) (cs : List Char) : List (List Char) :=
  match fuel with
  | 0 => []
  | fuel + 1 =>
    match cs with
    | [] => []
    | c :: rest =>
      if rustIsWhitespace c then splitWsGo fuel rest
      else
        (c :: rest.takeWhile (fun d => !rustIsWhitespace d)) ::
          splitWsGo fuel (rest.dropWhile (fun d => !rustIsWhitespace d))

/-- Rust `str::split_whitespace` wrapper with always-sufficient fuel. -/
def splitWs (cs : List Char) : List (List Char) :=
  splitWsGo (cs.length + 1) cs

/-- Rust `usize::from_str` (`str::parse::<usize>`): optional leading plus,
then one or more ASCII digits, value below 2 to the 64. -/
def parseUsizeRust (cs : List Char) : Option Nat :=
  let digits := match cs with
    | '+' :: rest => rest
    | _ => cs
  if digits = [] then none
  else if digits.all Char.isDigit then
    let v := digits.foldl (fun acc c => acc * 10 + (c.toNat - 48)) 0
    if v ≤ 2 ^ 64 - 1 then some v else none
  else none

/-- Rust `i64::from_str` restricted to all-digit strings, as produced by the
expression lexer (engine.rs `parse_number` collects only digits). -/
def parseI64Digits (cs : List Char) : Option Int :=
  if cs = [] then none
  else if cs.all Char.isDigit then
    let v : Nat := cs.foldl (fun acc c => acc * 10 + (c.toNat - 48)) 0
    if v ≤ 2 ^ 63 - 1 then some (v : Int) else none
  else none

/-- Two-complement wrap of an integer to the `i64` range. -/
def wrap64 (n : Int) : Int :=
  (n + 2 ^ 63) % 2 ^ 64 - 2 ^ 63

/-- Source token (token.rs `Token`). -/
inductive Token where
  | identifier (s : List Char)
  | stringLiteral (s : List Char)
  | charLiteral (s : List Char)
  | other (s : List Char)
deriving DecidableEq

/-- Expression token (token.rs `ExprToken`). -/
inductive ExprToken where
  | number (n : Int)
  | identifier (s : List Char)
  | lparen
  | rparen
  | notOp
  | plus
  | minus
  | multiply
  | divide
  | modulo
  | eqOp
  | neOp
  | ltOp
  | leOp
  | gtOp
  | geOp
  | andOp
  | orOp
  | bitAnd
  | bitOr
  | bitXor
  | bitNotOp
  | shiftLeft
  | shiftRight
deriving DecidableEq

/-- engine.rs `token_to_string`: the text of a token. -/
def tokenText : Token → List Char
  | Token.identifier s => s
  | Token.stringLiteral s => s
  | Token.charLiteral s => s
  | Token.other s => s

/-- engine.rs `tokens_to_string`: concatenate all token texts. -/
def tokensToString (tokens : List Token) : List Char :=
  tokens.foldl (fun acc t => acc ++ tokenText t) []

/-- engine.rs `is_whitespace`: an `Other` token whose text is all whitespace. -/
def isWsTok : Token → Bool
  | Token.other s => s.all rustIsWhitespace
  | _ => false

/-- engine.rs `trim_token_whitespace`: drop leading and trailing whitespace
tokens of a sequence. -/
def trimTokenWs (tokens : List Token) : List Token :=
  ((tokens.dropWhile isWsTok).reverse.dropWhile isWsTok).reverse

/-- engine.rs `is_identifier_start_char` (ASCII alphabetic or underscore). -/
def isIdentifierStartChar (c : Char) : Bool :=
  c.isAlpha || c == '_'

/-- engine.rs `is_identifier_continue_char` (ASCII alphanumeric or underscore). -/
def isIdentifierContinueChar (c : Char) : Bool :=
  c.isAlphanum || c == '_'

/-- engine.rs `is_valid_identifier`. -/
def isValidIdentifier (s : List Char) : Bool :=
  match s with
  | [] => false
  | c :: rest => isIdentifierStartChar c && rest.all isIdentifierContinueChar

/-- engine.rs `concatenate_tokens`: concatenate the texts; the result is an
`Identifier` exactly when the concatenated text is a valid C identifier. -/
def concatenateTokens (l r : Token) : Token :=
  let s := tokenText l ++ tokenText r
  if isValidIdentifier s then Token.identifier s else Token.other s

/-- The token-pasting operator test used by engine.rs `apply_token_pasting`:
an `Other` token whose trimmed text is `##`. -/
def isHashHash : Token → Bool
  | Token.other s => trimBoth s = ['#', '#']
  | _ => false

/-- engine.rs `find_prev_non_whitespace_token` on the whole result list:
index of the last non-whitespace token (the Rust loop scans backwards from
the end; this equivalent recursion prefers a later hit). -/
def findPrevNonWsIdx : List Token → Option Nat
  | [] => none
  | t :: rest =>
    match findPrevNonWsIdx rest with
    | some k => some (k + 1)
    | none => if isWsTok t then none else some 0

/-- Drop the whitespace tokens at the end of the accumulated result list
(the `while result.last().is_some_and(is_whitespace) result.pop()` loop). -/
def dropTrailingWsToks (res : List Token) : List Token :=
  (res.reverse.dropWhile isWsTok).reverse

/-- engine.rs `find_next_non_whitespace_token`, phrased on the input suffix:
skip whitespace tokens and return the next token with the remainder after it. -/
def splitNextNonWs : List Token → Option (Token × List Token)
  | [] => none
  | t :: rest => if isWsTok t then splitNextNonWs rest else some (t, rest)

/-- engine.rs `apply_token_pasting`, main loop: `result` is the accumulated
output, the last argument the remaining input.  Every iteration consumes at
least one input token, so the fuel (an embedding artifact) never runs out at
the value chosen by the wrapper below. -/
def applyTokenPastingGo (fuel : Nat) (result : List Token) (input : List Token) :
    List Token :=
  match fuel with
  | 0 => result
  | fuel + 1 =>
    match input with
    | [] => result
    | t :: rest =>
      if isHashHash t then
        match findPrevNonWsIdx result with
        | some pIdx =>
          let result' := dropTrailingWsToks result
          match splitNextNonWs rest with
          | some (nxt, rest') =>
            applyTokenPastingGo fuel
              (result'.set pIdx (concatenateTokens (result'.getD pIdx (Token.other [])) nxt))
              rest'
          | none => applyTokenPastingGo fuel (result' ++ [t]) rest
        | none => applyTokenPastingGo fuel (result ++ [t]) rest
      else applyTokenPastingGo fuel (result ++ [t]) rest

/-- engine.rs `apply_token_pasting`. -/
def applyTokenPasting (tokens : List Token) : List Token :=
  applyTokenPastingGo (tokens.length + 1) [] tokens

/-- engine.rs `parse_identifier`: consume identifier-continue characters. -/
def spanIdentifier (cs : List Char) : List Char × List Char :=
  (cs.takeWhile isIdentifierContinue, cs.dropWhile isIdentifierContinue)

/-- engine.rs `parse_literal`, loop after the opening quote has been consumed
and pushed: copy through the matching unescaped quote. -/
def parseLiteralGo (quote : Char) (acc : List Char) : List Char → List Char × List Char
  | [] => (acc, [])
  | c :: rest =>
    if c = '\\' then
      match rest with
      | [] => (acc ++ [c], [])
      | d :: rest' => parseLiteralGo quote (acc ++ [c, d]) rest'
    else if c = quote then (acc ++ [c], rest)
    else parseLiteralGo quote (acc ++ [c]) rest

/-- engine.rs block-comment skipping loop (`prev`/current pair scan for the
closing star-slash). -/
def skipBlockComment (prev : Char) : List Char → List Char
  | [] => []
  | c :: rest => if prev == '*' && c == '/' then rest else skipBlockComment c rest

/-- engine.rs `tokenize_line` main loop; the fuel is an embedding artifact,
always sufficient because every iteration consumes at least one character. -/
def tokenizeLineGo (fuel : Nat) (cs : List Char) (acc : List Token) : List Token :=
  match fuel with
  | 0 => acc
  | fuel + 1 =>
    match cs with
    | [] => acc
    | c :: rest =>
      if isIdentifierStart c then
        let (s, rest') := spanIdentifier (c :: rest)
        tokenizeLineGo fuel rest' (acc ++ [Token.identifier s])
      else if c == '"' || c == '\'' then
        let (s, rest') := parseLiteralGo c [c] rest
        if c == '"' then tokenizeLineGo fuel rest' (acc ++ [Token.stringLiteral s])
        else tokenizeLineGo fuel rest' (acc ++ [Token.charLiteral s])
      else if c == '/' then
        match rest with
        | '/' :: _ => tokenizeLineGo fuel [] (acc ++ [Token.other [' ']])
        | '*' :: rest2 =>
          tokenizeLineGo fuel (skipBlockComment '\x00' rest2) (acc ++ [Token.other [' ']])
        | _ => tokenizeLineGo fuel rest (acc ++ [Token.other ['/']])
      else if rustIsWhitespace c then
        let s := (c :: rest).takeWhile rustIsWhitespace
        tokenizeLineGo fuel ((c :: rest).dropWhile rustIsWhitespace) (acc ++ [Token.other s])
      else
        match c, rest with
        | '#', '#' :: rest2 => tokenizeLineGo fuel rest2 (acc ++ [Token.other ['#', '#']])
        | _, _ => tokenizeLineGo fuel rest (acc ++ [Token.other [c]])

/-- engine.rs `tokenize_line`. -/
def tokenizeLine (cs : List Char) : List Token :=
  tokenizeLineGo (cs.length + 1) cs []

/-- Count of trailing backslashes of an accumulated string. -/
def trailingBackslashes (cs : List Char) : Nat :=
  (cs.reverse.takeWhile (· == '\\')).length

/-- engine.rs `is_string_end_escaped`: odd number of trailing backslashes. -/
def isStringEndEscaped (cs : List Char) : Bool :=
  trailingBackslashes cs % 2 == 1

/-- engine.rs `handle_line_comment`: emit one space, skip to and including the
next newline (the newline itself is copied to the output). -/
def stripLineComment (result : List Char) (cs : List Char) : List Char × List Char :=
  let result' := result ++ [' ']
  match findChr cs '\n' with
  | some k => (result' ++ ['\n'], cs.drop (k + 1))
  | none => (result', [])

/-- engine.rs `strip_comments` main loop.  The accumulated `result` is part of
the state because the unescaped-quote test inspects its trailing backslashes. -/
def stripCommentsGo (fuel : Nat) (inString : Bool) (quote : Char)
    (result : List Char) (cs : List Char) : List Char :=
  match fuel with
  | 0 => result
  | fuel + 1 =>
    match cs with
    | [] => result
    | c :: rest =>
      if !inString then
        if c == '"' || c == '\'' then stripCommentsGo fuel true c (result ++ [c]) rest
        else if c == '/' then
          match rest with
          | '/' :: rest2 =>
            let (result', cs') := stripLineComment result rest2
            stripCommentsGo fuel false quote result' cs'
          | '*' :: rest2 =>
            stripCommentsGo fuel false quote (result ++ [' ']) (skipBlockComment '\x00' rest2)
          | _ => stripCommentsGo fuel false quote (result ++ [c]) rest
        else stripCommentsGo fuel false quote (result ++ [c]) rest
      else
        if c == quote && !isStringEndEscaped result then
          stripCommentsGo fuel false '\x00' (result ++ [c]) rest
        else stripCommentsGo fuel inString quote (result ++ [c]) rest

/-- engine.rs `strip_comments` (the early return for inputs without a slash is
behaviourally the identity of the loop and is kept implicit). -/
def stripComments (cs : List Char) : List Char :=
  stripCommentsGo (cs.length + 1) false '\x00' [] cs

/-- engine.rs `line_splice`: delete every backslash-newline (or
backslash-carriage-return-newline) pair. -/
def lineSplice : List Char → List Char
  | [] => []
  | '\\' :: '\n' :: rest => lineSplice rest
  | '\\' :: '\r' :: '\n' :: rest => lineSplice rest
  | '\\' :: '\r' :: rest => lineSplice rest
  | '\\' :: c :: rest => '\\' :: lineSplice (c :: rest)
  | ['\\'] => ['\\']
  | c :: rest => c :: lineSplice rest

/-- engine.rs `parse_pragma_string`: the string content between the quotes of
a `_Pragma` operand, and the remainder after the closing quote. -/
def parsePragmaStringGo (fuel : Nat) (content : List Char) :
    List Char → Option (List Char × List Char)
  | [] => none
  | c :: rest =>
    match fuel with
    | 0 => none
    | fuel + 1 =>
      if c = '"' then
        if trailingBackslashes content % 2 == 0 then some (content, rest)
        else parsePragmaStringGo fuel (content ++ [c]) rest
      else parsePragmaStringGo fuel (content ++ [c]) rest

/-- engine.rs `process_single_pragma` unescaping of the pragma text. -/
def unescapeQuotes : List Char → List Char
  | [] => []
  | '\\' :: '"' :: rest => '"' :: unescapeQuotes rest
  | c :: rest => c :: unescapeQuotes rest

/-- engine.rs `process_single_pragma`: given the characters after the
`_Pragma` identifier, produce the replacement text and the remainder. -/
def processSinglePragma (cs : List Char) : Option (List Char × List Char) :=
  let afterWs := cs.dropWhile rustIsWhitespace
  match afterWs with
  | '(' :: afterParen =>
    match afterParen with
    | '"' :: strStart =>
      match parsePragmaStringGo (strStart.length + 1) [] strStart with
      | some (content, afterStr) =>
        let afterWs2 := afterStr.dropWhile rustIsWhitespace
        match afterWs2 with
        | ')' :: rest =>
          some (("#pragma ").toList ++ unescapeQuotes content, rest)
        | _ => none
      | none => none
    | _ => none
  | _ => none

/-- engine.rs `process_pragma` main loop. -/
def processPragmaGo (fuel : Nat) (result : List Char) (cs : List Char) : List Char :=
  match fuel with
  | 0 => result
  | fuel + 1 =>
    match cs with
    | [] => result
    | c :: rest =>
      if startsWithS (c :: rest) (("_Pragma").toList) then
        match processSinglePragma ((c :: rest).drop 7) with
        | some (emitted, rest') => processPragmaGo fuel (result ++ emitted) rest'
        | none => processPragmaGo fuel (result ++ [c]) rest
      else processPragmaGo fuel (result ++ [c]) rest

/-- engine.rs `process_pragma`: rewrite `_Pragma("...")` to `#pragma ...`. -/
def processPragma (cs : List Char) : List Char :=
  processPragmaGo (cs.length + 1) [] cs

/-- Rust `str::lines` splitting of the input into logical lines: split on
newline, drop a final empty segment produced by a terminating newline, and
strip one trailing carriage return per line. -/
def splitOnNl : List Char → List (List Char)
  | [] => [[]]
  | '\n' :: rest => [] :: splitOnNl rest
  | c :: rest =>
    match splitOnNl rest with
    | [] => [[c]]
    | l :: ls => (c :: l) :: ls

/-- Strip one trailing carriage return, as `str::lines` does. -/
def stripTrailingCR (cs : List Char) : List Char :=
  match cs.reverse with
  | '\r' :: rest => rest.reverse
  | _ => cs

/-- Rust `str::lines`. -/
def rustLines (cs : List Char) : List (List Char) :=
  match cs with
  | [] => []
  | _ =>
    let segs := splitOnNl cs
    let segs' := if segs.getLast? = some [] then segs.dropLast else segs
    segs'.map stripTrailingCR

/-- Join output lines with a single newline (`out_lines.join("\n")`). -/
def joinNl (ls : List (List Char)) : List Char :=
  match ls with
  | [] => []
  | l :: rest => rest.foldl (fun acc x => acc ++ '\n' :: x) l

/-- error.rs `PreprocessErrorKind`.  The `Io` payload (a Rust io error) is
irrelevant to the preprocessing core and is dropped. -/
inductive ErrKind where
  | includeNotFound (path : List Char)
  | malformedDirective (directive : List Char)
  | macroArgMismatch (details : List Char)
  | recursionLimitExceeded (details : List Char)
  | conditionalError (details : List Char)
  | ioError
  | otherError (message : List Char)
deriving DecidableEq

/-- error.rs `PreprocessError`: kind plus location data. -/
structure PErr where
  kind : ErrKind
  file : List Char
  line : Nat
  column : Option Nat
  sourceLine : Option (List Char)
deriving DecidableEq

/-- error.rs constructor helpers (`with_column` / `with_source_line` are
applied by the driver immediately after construction). -/
def PErr.mk' (k : ErrKind) (file : List Char) (line : Nat) : PErr :=
  ⟨k, file, line, none, none⟩

def PErr.withColumn (e : PErr) (c : Nat) : PErr :=
  { e with column := some c }

def PErr.withSourceLine (e : PErr) (s : List Char) : PErr :=
  { e with sourceLine := some s }

/-- macro_def.rs `Macro`. -/
structure MacroDef where
  params : Option (List (List Char))
  body : List Token
  isVariadic : Bool
  definitionLocation : Option (List Char × Nat)
  isBuiltin : Bool
deriving DecidableEq

/-- config.rs `Compiler`. -/
inductive Compiler where
  | gcc
  | clang
  | msvc
deriving DecidableEq

/-- config.rs `IncludeKind`. -/
inductive IncludeKind where
  | localKind
  | systemKind
deriving DecidableEq

/-- config.rs `IncludeContext` passed to the resolver. -/
structure IncludeContextInfo where
  includeStack : List (List Char)
  includeDirs : List (List Char)

/-- config.rs `IncludeResolver` (an opaque user callback). -/
abbrev Resolver := List Char → IncludeKind → IncludeContextInfo → Option (List Char)

/-- The conditional-compilation frame as used by the handlers in driver.rs:
`ConditionalState::If(bool) | Elif(bool) | Else(bool)` carrying the
`is_active` flag of the current branch. -/
inductive ConditionalState where
  | ifState (a : Bool)
  | elifState (a : Bool)
  | elseState (a : Bool)
deriving DecidableEq

/-- context.rs `PreprocessorContext` (plus the `current_column` counter that
driver.rs maintains).  The `warning_handler` callback mutates no engine state
and is omitted; `formattedDate`/`formattedTime` stand for the strings that
date_time.rs computes from the wall clock for the dynamic macros. -/
structure Context where
  macros : List (List Char × MacroDef)
  disabledMacros : List (List Char)
  includedOnce : List (List Char)
  includeStack : List (List Char)
  includeResolver : Option Resolver
  conditionalStack : List ConditionalState
  currentFile : List Char
  currentLine : Nat
  currentColumn : Nat
  recursionLimit : Nat
  compiler : Compiler
  formattedDate : List Char
  formattedTime : List Char

/-- HashMap membership. -/
def mapContainsKey (m : List (List Char × MacroDef)) (k : List Char) : Bool :=
  m.any (fun p => p.1 == k)

/-- HashMap lookup. -/
def mapGet (m : List (List Char × MacroDef)) (k : List Char) : Option MacroDef :=
  (m.find? (fun p => p.1 == k)).map (·.2)

/-- HashMap insert (replacing any previous binding of the key). -/
def mapInsert (m : List (List Char × MacroDef)) (k : List Char) (v : MacroDef) :
    List (List Char × MacroDef) :=
  (k, v) :: m.filter (fun p => !(p.1 == k))

/-- HashMap remove. -/
def mapRemove (m : List (List Char × MacroDef)) (k : List Char) :
    List (List Char × MacroDef) :=
  m.filter (fun p => !(p.1 == k))

/-- HashSet insert. -/
def setInsert (s : List (List Char)) (x : List Char) : List (List Char) :=
  if s.contains x then s else x :: s

/-- HashSet remove. -/
def setRemove (s : List (List Char)) (x : List Char) : List (List Char) :=
  s.filter (fun y => !(y == x))

/-- context.rs `PreprocessorContext::new`. -/
def Context.new : Context where
  macros := []
  disabledMacros := []
  includedOnce := []
  includeStack := []
  includeResolver := none
  conditionalStack := []
  currentFile := ("<stdin>").toList
  currentLine := 1
  currentColumn := 1
  recursionLimit := 128
  compiler := Compiler.gcc
  formattedDate := []
  formattedTime := []

/-- context.rs `is_defined`. -/
def Context.isDefinedM (ctx : Context) (name : List Char) : Bool :=
  mapContainsKey ctx.macros name

/-- driver.rs `can_emit_line`: every frame of the conditional stack active. -/
def canEmitLine (ctx : Context) : Bool :=
  ctx.conditionalStack.all fun s =>
    match s with
    | ConditionalState.ifState a => a
    | ConditionalState.elifState a => a
    | ConditionalState.elseState a => a

/-- driver.rs `extract_directive`: left-trim, strip the leading `#`, trim. -/
def extractDirective (line : List Char) : Option (List Char) :=
  match trimStart line with
  | '#' :: rest => some (trimBoth rest)
  | _ => none

/-- driver.rs `calculate_column`. -/
def calculateColumn (line substr : List Char) : Nat :=
  if substr = [] then 1
  else
    match findSubstr line substr with
    | some pos => pos + 1
    | none => line.length + 1

/-- driver.rs `directive_error`. -/
def Context.directiveErr (ctx : Context) (directive line : List Char) : PErr :=
  ((PErr.mk' (ErrKind.malformedDirective directive) ctx.currentFile ctx.currentLine).withColumn
      (calculateColumn line directive)).withSourceLine line

/-- driver.rs `conditional_error`. -/
def Context.conditionalErr (ctx : Context) (details line : List Char) : PErr :=
  ((PErr.mk' (ErrKind.conditionalError details) ctx.currentFile ctx.currentLine).withColumn
      (calculateColumn line details)).withSourceLine line

/-- driver.rs `include_error`. -/
def Context.includeErr (ctx : Context) (path line : List Char) : PErr :=
  ((PErr.mk' (ErrKind.includeNotFound path) ctx.currentFile ctx.currentLine).withColumn
      (calculateColumn line path)).withSourceLine line

/-- driver.rs `generic_error`. -/
def Context.genericErr (ctx : Context) (message line : List Char) : PErr :=
  ((PErr.mk' (ErrKind.otherError message) ctx.currentFile ctx.currentLine).withColumn
      (calculateColumn line message)).withSourceLine line

/-- The distinguished error returned when the embedding fuel runs out; never
reached at the fuel values used in the theorems below. -/
def fuelErr (ctx : Context) : PErr :=
  PErr.mk' (ErrKind.otherError (("embedding fuel exhausted").toList)) ctx.currentFile
    ctx.currentLine

/-- A Rust panic (out-of-bounds index or slice).  The Rust program aborts at
these points; the embedding surfaces them as a distinguished error value.
No theorem below depends on the shape of this value. -/
def panicErr (ctx : Context) (what : List Char) : PErr :=
  PErr.mk' (ErrKind.otherError (("RUST PANIC: ").toList ++ what)) ctx.currentFile
    ctx.currentLine

/-- engine.rs expression-lexer errors carry the synthetic location
`<expression>` line 0. -/
def exprErr (msg : List Char) : PErr :=
  PErr.mk' (ErrKind.otherError msg) (("<expression>").toList) 0

/-- engine.rs `parse_number`: collect ASCII digits and parse as `i64`. -/
def parseNumberTok (c : Char) (cs : List Char) :
    Except PErr (ExprToken × List Char) :=
  let digits := c :: cs.takeWhile Char.isDigit
  let rest := cs.dropWhile Char.isDigit
  match parseI64Digits digits with
  | some v => Except.ok (ExprToken.number v, rest)
  | none => Except.error (exprErr (("Invalid number: ").toList ++ digits))

/-- engine.rs `parse_expression_identifier`. -/
def parseExprIdent (c : Char) (cs : List Char) : ExprToken × List Char :=
  (ExprToken.identifier (c :: cs.takeWhile (fun d => rustIsAlphanumeric d || d == '_')),
    cs.dropWhile (fun d => rustIsAlphanumeric d || d == '_'))

/-- engine.rs `parse_two_char_operator`. -/
def parseTwoCharOperator (first : Char) (cs : List Char) :
    Except PErr (ExprToken × List Char) :=
  if first = '!' then
    match cs with
    | '=' :: rest => Except.ok (ExprToken.neOp, rest)
    | _ => Except.ok (ExprToken.notOp, cs)
  else if first = '=' then
    match cs with
    | '=' :: rest => Except.ok (ExprToken.eqOp, rest)
    | _ => Except.error (exprErr (("Invalid operator: =").toList))
  else if first = '<' then
    match cs with
    | '=' :: rest => Except.ok (ExprToken.leOp, rest)
    | '<' :: rest => Except.ok (ExprToken.shiftLeft, rest)
    | _ => Except.ok (ExprToken.ltOp, cs)
  else if first = '>' then
    match cs with
    | '=' :: rest => Except.ok (ExprToken.geOp, rest)
    | '>' :: rest => Except.ok (ExprToken.shiftRight, rest)
    | _ => Except.ok (ExprToken.gtOp, cs)
  else if first = '&' then
    match cs with
    | '&' :: rest => Except.ok (ExprToken.andOp, rest)
    | _ => Except.ok (ExprToken.bitAnd, cs)
  else if first = '|' then
    match cs with
    | '|' :: rest => Except.ok (ExprToken.orOp, rest)
    | _ => Except.ok (ExprToken.bitOr, cs)
  else Except.error (exprErr (("Invalid operator: ").toList ++ [first]))

/-- engine.rs `tokenize_expression` main loop. -/
def tokenizeExpressionGo (fuel : Nat) (cs : List Char) (acc : List ExprToken) :
    Except PErr (List ExprToken) :=
  match fuel with
  | 0 => Except.ok acc
  | fuel + 1 =>
    match cs with
    | [] => Except.ok acc
    | c :: rest =>
      if c.isDigit then
        match parseNumberTok c rest with
        | Except.error e => Except.error e
        | Except.ok (t, rest') => tokenizeExpressionGo fuel rest' (acc ++ [t])
      else if c.isAlpha || c == '_' then
        let (t, rest') := parseExprIdent c rest
        tokenizeExpressionGo fuel rest' (acc ++ [t])
      else if c == '(' then tokenizeExpressionGo fuel rest (acc ++ [ExprToken.lparen])
      else if c == ')' then tokenizeExpressionGo fuel rest (acc ++ [ExprToken.rparen])
      else if c == '~' then tokenizeExpressionGo fuel rest (acc ++ [ExprToken.bitNotOp])
      else if c == '^' then tokenizeExpressionGo fuel rest (acc ++ [ExprToken.bitXor])
      else if c == '+' then tokenizeExpressionGo fuel rest (acc ++ [ExprToken.plus])
      else if c == '-' then tokenizeExpressionGo fuel rest (acc ++ [ExprToken.minus])
      else if c == '*' then tokenizeExpressionGo fuel rest (acc ++ [ExprToken.multiply])
      else if c == '/' then tokenizeExpressionGo fuel rest (acc ++ [ExprToken.divide])
      else if c == '%' then tokenizeExpressionGo fuel rest (acc ++ [ExprToken.modulo])
      else if rustIsWhitespace c then tokenizeExpressionGo fuel rest acc
      else if c == '!' || c == '=' || c == '<' || c == '>' || c == '&' || c == '|' then
        match parseTwoCharOperator c rest with
        | Except.error e => Except.error e
        | Except.ok (t, rest') => tokenizeExpressionGo fuel rest' (acc ++ [t])
      else Except.error (exprErr (("Invalid character: ").toList ++ [c]))

/-- engine.rs `tokenize_expression`. -/
def tokenizeExpression (cs : List Char) : Except PErr (List ExprToken) :=
  tokenizeExpressionGo (cs.length + 1) cs []

/-!
The constant-expression evaluator of driver.rs (`parse_or` down to
`parse_primary`).  Note that driver.rs has its own copy of the recursive
descent, without cases for the bitwise and shift tokens that engine.rs can
lex; those tokens therefore fall through to "Unexpected tokens at end of
expression".  The context is read-only here (macro table for `defined`, file
and line for error locations).  The fuel is an embedding artifact.
-/

/-!
The constant-expression evaluator of driver.rs (`parse_or` down to
`parse_primary`).  Note that driver.rs has its own copy of the recursive
descent, without cases for the bitwise and shift tokens that engine.rs can
lex; those tokens therefore fall through to "Unexpected tokens at end of
expression".  The context is read-only here (macro table for `defined`, file
and line for error locations).

In Rust the descent is mutually recursive through the parenthesis case of
`parse_primary`.  The embedding breaks the cycle by passing the or-level
parser downwards as the explicit argument `orE`, and bounds the operator
loops and the unary chain with local fuels; every fuel is instantiated above
the token-list length at its call site, and since each step consumes at
least one token the fuel branches are unreachable.  These parameters are
termination artifacts of the embedding; the bodies mirror driver.rs.
-/

/-- The shape of the or-level parser threaded through the descent. -/
abbrev EvalFn := List ExprToken → Nat → Except PErr (Int × Nat)

/-- driver.rs `parse_primary`. -/
def parsePrimaryE (orE : EvalFn) (ctx : Context) (full : List Char)
    (tokens : List ExprToken) (pos : Nat) : Except PErr (Int × Nat) :=
  match tokens.get? pos with
  | none => Except.error (ctx.genericErr (("Unexpected end of expression").toList) full)
  | some (ExprToken.number v) => Except.ok (v, pos + 1)
  | some (ExprToken.identifier ident) =>
    if ident = ("defined").toList then
      match tokens.get? (pos + 1) with
      | some ExprToken.lparen =>
        match tokens.get? (pos + 2) with
        | some (ExprToken.identifier id) =>
          match tokens.get? (pos + 3) with
          | some ExprToken.rparen =>
            Except.ok (if ctx.isDefinedM id then 1 else 0, pos + 4)
          | _ =>
            Except.error
              (ctx.genericErr (("Expected ) after defined(identifier").toList) full)
        | _ =>
          Except.error
            (ctx.genericErr (("Expected identifier after defined(").toList) full)
      | _ =>
        Except.error
          (ctx.genericErr
            (("defined must be followed by identifier or (identifier)").toList) full)
    else Except.ok (0, pos + 1)
  | some ExprToken.lparen =>
    match orE tokens (pos + 1) with
    | Except.error e => Except.error e
    | Except.ok (v, pos') =>
      match tokens.get? pos' with
      | some ExprToken.rparen => Except.ok (v, pos' + 1)
      | _ => Except.error (ctx.genericErr (("Expected )").toList) full)
  | some _ =>
    Except.error (ctx.genericErr (("Expected number, identifier, or (").toList) full)

/-- driver.rs `parse_unary` (`!` and `-` chains; one token per step). -/
def parseUnaryE (orE : EvalFn) (ctx : Context) (full : List Char)
    (tokens : List ExprToken) (ufuel : Nat) (pos : Nat) : Except PErr (Int × Nat) :=
  match ufuel with
  | 0 => Except.error (fuelErr ctx)
  | ufuel + 1 =>
    match tokens.get? pos with
    | some ExprToken.notOp =>
      match parseUnaryE orE ctx full tokens ufuel (pos + 1) with
      | Except.error e => Except.error e
      | Except.ok (v, pos') => Except.ok (if v = 0 then 1 else 0, pos')
    | some ExprToken.minus =>
      match parseUnaryE orE ctx full tokens ufuel (pos + 1) with
      | Except.error e => Except.error e
      | Except.ok (v, pos') => Except.ok (wrap64 (-v), pos')
    | _ => parsePrimaryE orE ctx full tokens pos

/-- The `*` / `/` / `%` loop of driver.rs `parse_multiplicative`. -/
def parseMultiplicativeLoop (orE : EvalFn) (ctx : Context) (full : List Char)
    (tokens : List ExprToken) (lfuel : Nat) (left : Int) (pos : Nat) :
    Except PErr (Int × Nat) :=
  match lfuel with
  | 0 => Except.error (fuelErr ctx)
  | lfuel + 1 =>
    match tokens.get? pos with
    | some ExprToken.multiply =>
      match parseUnaryE orE ctx full tokens (tokens.length + 1) (pos + 1) with
      | Except.error e => Except.error e
      | Except.ok (right, pos') =>
        parseMultiplicativeLoop orE ctx full tokens lfuel (wrap64 (left * right)) pos'
    | some ExprToken.divide =>
      match parseUnaryE orE ctx full tokens (tokens.length + 1) (pos + 1) with
      | Except.error e => Except.error e
      | Except.ok (right, pos') =>
        if right = 0 then
          Except.error (ctx.genericErr (("Division by zero").toList) full)
        else parseMultiplicativeLoop orE ctx full tokens lfuel (left.tdiv right) pos'
    | some ExprToken.modulo =>
      match parseUnaryE orE ctx full tokens (tokens.length + 1) (pos + 1) with
      | Except.error e => Except.error e
      | Except.ok (right, pos') =>
        if right = 0 then
          Except.error (ctx.genericErr (("Modulo by zero").toList) full)
        else parseMultiplicativeLoop orE ctx full tokens lfuel (left.tmod right) pos'
    | _ => Except.ok (left, pos)

/-- driver.rs `parse_multiplicative`. -/
def parseMultiplicativeE (orE : EvalFn) (ctx : Context) (full : List Char)
    (tokens : List ExprToken) (pos : Nat) : Except PErr (Int × Nat) :=
  match parseUnaryE orE ctx full tokens (tokens.length + 1) pos with
  | Except.error e => Except.error e
  | Except.ok (left, pos) =>
    parseMultiplicativeLoop orE ctx full tokens (tokens.length + 1) left pos

/-- The `+` / `-` loop of driver.rs `parse_additive`. -/
def parseAdditiveLoop (orE : EvalFn) (ctx : Context) (full : List Char)
    (tokens : List ExprToken) (lfuel : Nat) (left : Int) (pos : Nat) :
    Except PErr (Int × Nat) :=
  match lfuel with
  | 0 => Except.error (fuelErr ctx)
  | lfuel + 1 =>
    match tokens.get? pos with
    | some ExprToken.plus =>
      match parseMultiplicativeE orE ctx full tokens (pos + 1) with
      | Except.error e => Except.error e
      | Except.ok (right, pos') =>
        parseAdditiveLoop orE ctx full tokens lfuel (wrap64 (left + right)) pos'
    | some ExprToken.minus =>
      match parseMultiplicativeE orE ctx full tokens (pos + 1) with
      | Except.error e => Except.error e
      | Except.ok (right, pos') =>
        parseAdditiveLoop orE ctx full tokens lfuel (wrap64 (left - right)) pos'
    | _ => Except.ok (left, pos)

/-- driver.rs `parse_additive`. -/
def parseAdditiveE (orE : EvalFn) (ctx : Context) (full : List Char)
    (tokens : List ExprToken) (pos : Nat) : Except PErr (Int × Nat) :=
  match parseMultiplicativeE orE ctx full tokens pos with
  | Except.error e => Except.error e
  | Except.ok (left, pos) =>
    parseAdditiveLoop orE ctx full tokens (tokens.length + 1) left pos

/-- driver.rs `parse_comparison` (a single optional comparison, not a loop). -/
def parseComparisonE (orE : EvalFn) (ctx : Context) (full : List Char)
    (tokens : List ExprToken) (pos : Nat) : Except PErr (Int × Nat) :=
  match parseAdditiveE orE ctx full tokens pos with
  | Except.error e => Except.error e
  | Except.ok (left, pos) =>
    match tokens.get? pos with
    | some ExprToken.eqOp =>
      match parseAdditiveE orE ctx full tokens (pos + 1) with
      | Except.error e => Except.error e
      | Except.ok (right, pos') => Except.ok (if left = right then 1 else 0, pos')
    | some ExprToken.neOp =>
      match parseAdditiveE orE ctx full tokens (pos + 1) with
      | Except.error e => Except.error e
      | Except.ok (right, pos') => Except.ok (if left ≠ right then 1 else 0, pos')
    | some ExprToken.ltOp =>
      match parseAdditiveE orE ctx full tokens (pos + 1) with
      | Except.error e => Except.error e
      | Except.ok (right, pos') => Except.ok (if left < right then 1 else 0, pos')
    | some ExprToken.leOp =>
      match parseAdditiveE orE ctx full tokens (pos + 1) with
      | Except.error e => Except.error e
      | Except.ok (right, pos') => Except.ok (if left ≤ right then 1 else 0, pos')
    | some ExprToken.gtOp =>
      match parseAdditiveE orE ctx full tokens (pos + 1) with
      | Except.error e => Except.error e
      | Except.ok (right, pos') => Except.ok (if right < left then 1 else 0, pos')
    | some ExprToken.geOp =>
      match parseAdditiveE orE ctx full tokens (pos + 1) with
      | Except.error e => Except.error e
      | Except.ok (right, pos') => Except.ok (if right ≤ left then 1 else 0, pos')
    | _ => Except.ok (left, pos)

/-- The `&&` loop of driver.rs `parse_and`. -/
def parseAndLoop (orE : EvalFn) (ctx : Context) (full : List Char)
    (tokens : List ExprToken) (lfuel : Nat) (left : Int) (pos : Nat) :
    Except PErr (Int × Nat) :=
  match lfuel with
  | 0 => Except.error (fuelErr ctx)
  | lfuel + 1 =>
    match tokens.get? pos with
    | some ExprToken.andOp =>
      match parseComparisonE orE ctx full tokens (pos + 1) with
      | Except.error e => Except.error e
      | Except.ok (right, pos') =>
        parseAndLoop orE ctx full tokens lfuel
          (if left ≠ 0 ∧ right ≠ 0 then 1 else 0) pos'
    | _ => Except.ok (left, pos)

/-- driver.rs `parse_and`. -/
def parseAndE (orE : EvalFn) (ctx : Context) (full : List Char)
    (tokens : List ExprToken) (pos : Nat) : Except PErr (Int × Nat) :=
  match parseComparisonE orE ctx full tokens pos with
  | Except.error e => Except.error e
  | Except.ok (left, pos) =>
    parseAndLoop orE ctx full tokens (tokens.length + 1) left pos

/-- The `||` loop of driver.rs `parse_or`. -/
def parseOrLoop (orE : EvalFn) (ctx : Context) (full : List Char)
    (tokens : List ExprToken) (lfuel : Nat) (left : Int) (pos : Nat) :
    Except PErr (Int × Nat) :=
  match lfuel with
  | 0 => Except.error (fuelErr ctx)
  | lfuel + 1 =>
    match tokens.get? pos with
    | some ExprToken.orOp =>
      match parseAndE orE ctx full tokens (pos + 1) with
      | Except.error e => Except.error e
      | Except.ok (right, pos') =>
        parseOrLoop orE ctx full tokens lfuel
          (if left ≠ 0 ∨ right ≠ 0 then 1 else 0) pos'
    | _ => Except.ok (left, pos)

/-- driver.rs `parse_or`, tying the recursive knot of the descent: the fuel
bounds the parenthesis-nesting depth and is instantiated above the token
count, where it cannot run out. -/
def parseOrE : Nat → Context → List Char → List ExprToken → Nat →
    Except PErr (Int × Nat)
  | 0, ctx, _, _, _ => Except.error (fuelErr ctx)
  | fuel + 1, ctx, full, tokens, pos =>
    match parseAndE (parseOrE fuel ctx full) ctx full tokens pos with
    | Except.error e => Except.error e
    | Except.ok (left, pos) =>
      parseOrLoop (parseOrE fuel ctx full) ctx full tokens (tokens.length + 1) left pos

/-- driver.rs `evaluate_expression_tokens`: the whole token list must be
consumed. -/
def evaluateExpressionTokens (ctx : Context) (full : List Char)
    (tokens : List ExprToken) : Except PErr Int :=
  match parseOrE (tokens.length + 1) ctx full tokens 0 with
  | Except.error e => Except.error e
  | Except.ok (v, pos) =>
    if pos ≠ tokens.length then
      Except.error (ctx.genericErr (("Unexpected tokens at end of expression").toList) full)
    else Except.ok v

/-- driver.rs `parse_expression`: lex with the engine expression lexer, then
evaluate with the driver descent; true iff the value is non-zero. -/
def parseExpressionB (ctx : Context) (full expr : List Char) : Except PErr Bool :=
  match tokenizeExpression expr with
  | Except.error e => Except.error e
  | Except.ok tokens =>
    match evaluateExpressionTokens ctx full tokens with
    | Except.error e => Except.error e
    | Except.ok v => Except.ok (v ≠ 0)


/-- The result type of a state-mutating driver operation: the Rust
`Result` value together with the context as left behind (also on errors). -/
abbrev PRes (α : Type) := Except PErr α × Context

/-- driver.rs `find_next_non_whitespace`: first index at or after `start`
holding a non-whitespace token (or the length if none). -/
def findNextNonWsIdx (tokens : List Token) (start : Nat) : Nat :=
  findNextGo (tokens.length + 1) tokens start
where
  findNextGo (fuel : Nat) (tokens : List Token) (j : Nat) : Nat :=
    match fuel with
    | 0 => j
    | fuel + 1 =>
      match tokens.get? j with
      | some (Token.other s) =>
        if s.all rustIsWhitespace then findNextGo fuel tokens (j + 1) else j
      | _ => j

/-- driver.rs `handle_function_like_macro` paren search: first index at or
after `i` holding an `Other` token whose trimmed text starts with `(`. -/
def findParenIdx (tokens : List Token) (i : Nat) : Option Nat :=
  findParenGo (tokens.length + 1) tokens i
where
  findParenGo (fuel : Nat) (tokens : List Token) (j : Nat) : Option Nat :=
    match fuel with
    | 0 => none
    | fuel + 1 =>
      match tokens.get? j with
      | none => none
      | some (Token.other s) =>
        if startsWithS (trimBoth s) (['(']) then some j else findParenGo fuel tokens (j + 1)
      | some _ => findParenGo fuel tokens (j + 1)

/-- The `is_function_like_invocation` test of driver.rs
`handle_macro_invocation`: the next non-whitespace token is an `Other` whose
left-trimmed text starts with `(` (or is exactly `(`). -/
def isFunctionLikeInvocation (tokens : List Token) (i : Nat) : Bool :=
  let j := findNextNonWsIdx tokens (i + 1)
  decide (j < tokens.length) &&
    match tokens.get? j with
    | some (Token.other s) => startsWithS (trimStart s) (['(']) || s == ['(']
    | _ => false

/-- One step of the character scan inside driver.rs `parse_macro_arguments`:
either the argument list is complete (left, with the collected arguments), or
the scan continues (right, with the updated depth, current argument and
arguments).  The parenthesis depth is an `i32` in Rust and may go negative. -/
def parseArgsCharLoop (d : Int) (cur : List Token) (args : List (List Token)) :
    List Char → Sum (List (List Token)) (Int × List Token × List (List Token))
  | [] => Sum.inr (d, cur, args)
  | ch :: cs =>
    if ch = '(' then parseArgsCharLoop (d + 1) cur args cs
    else if ch = ')' then
      if d - 1 = 0 then Sum.inl (args ++ [trimTokenWs cur])
      else parseArgsCharLoop (d - 1) cur args cs
    else if ch = ',' then
      if d = 1 then parseArgsCharLoop d [] (args ++ [trimTokenWs cur]) cs
      else parseArgsCharLoop d (cur ++ [Token.other [ch]]) args cs
    else parseArgsCharLoop d (cur ++ [Token.other [ch]]) args cs

/-- driver.rs `parse_macro_arguments` main loop over the token list. -/
def parseMacroArgumentsGo (fuel : Nat) (ctx : Context) (tokens : List Token)
    (full : List Char) (i : Nat) (d : Int) (cur : List Token)
    (args : List (List Token)) : Except PErr (List (List Token) × Nat) :=
  match fuel with
  | 0 => Except.error (fuelErr ctx)
  | fuel + 1 =>
    match tokens.get? i with
    | none =>
      Except.error
        ((PErr.mk' (ErrKind.macroArgMismatch (("unterminated macro arguments").toList))
            ctx.currentFile ctx.currentLine).withSourceLine full)
    | some (Token.other s) =>
      match parseArgsCharLoop d cur args s with
      | Sum.inl args' => Except.ok (args', i + 1)
      | Sum.inr (d', cur', args') =>
        parseMacroArgumentsGo fuel ctx tokens full (i + 1) d' cur' args'
    | some t => parseMacroArgumentsGo fuel ctx tokens full (i + 1) d (cur ++ [t]) args

/-- driver.rs `parse_macro_arguments`: collect the comma-separated arguments
starting just after the token at `parenIdx`; unterminated argument lists are
a `MacroArgMismatch` error. -/
def parseMacroArgumentsD (ctx : Context) (tokens : List Token) (parenIdx : Nat)
    (full : List Char) : Except PErr (List (List Token) × Nat) :=
  parseMacroArgumentsGo (tokens.length + 1) ctx tokens full (parenIdx + 1) 1 [] []

/-- engine.rs `expand_predefined_macro`. -/
def expandPredefined (ctx : Context) (name : List Char) : Option Token :=
  if name = ("__LINE__").toList then
    some (Token.other ((Nat.repr ctx.currentLine).toList))
  else if name = ("__FILE__").toList then
    some (Token.stringLiteral ('"' :: ctx.currentFile ++ ['"']))
  else if name = ("__DATE__").toList then
    some (Token.stringLiteral ('"' :: ctx.formattedDate ++ ['"']))
  else if name = ("__TIME__").toList then
    some (Token.stringLiteral ('"' :: ctx.formattedTime ++ ['"']))
  else none

/-- The escaping of a stringified argument in driver.rs
`replace_macro_parameters` (`\` to `\\` then `"` to `\"`). -/
def escapeArg (ts : List Token) : List Char :=
  (tokensToString ts).foldr
    (fun c acc =>
      if c = '\\' then '\\' :: '\\' :: acc
      else if c = '"' then '\\' :: '"' :: acc
      else c :: acc) []

/-- driver.rs `handle_define` parameter-list loop.  Returns the collected
parameters, the variadic flag, and the remaining characters (the body).  Note
that on the three-dot `...` form the loop breaks without consuming the
closing parenthesis, which therefore becomes part of the body. -/
def defineParamsLoop (fuel : Nat) (param : List Char) (acc : List (List Char))
    (isVar : Bool) : List Char → Option (List (List Char) × Bool × List Char)
  | [] => none
  | c :: rest =>
    match fuel with
    | 0 => none
    | fuel + 1 =>
      if c = ')' then
        let acc' := if trimBoth param ≠ [] then acc ++ [trimBoth param] else acc
        some (acc', isVar, rest)
      else if c = ',' then
        defineParamsLoop fuel [] (acc ++ [trimBoth param]) isVar rest
      else if c = '.' then
        match rest with
        | '.' :: '.' :: rest3 => some (acc, true, rest3)
        | _ => defineParamsLoop fuel param acc true rest
      else defineParamsLoop fuel (param ++ [c]) acc isVar rest

/-- driver.rs `handle_define`. -/
def handleDefine (ctx : Context) (rest full : List Char) : PRes (Option (List Char)) :=
  if !canEmitLine ctx then (Except.ok none, ctx)
  else
    let rest := trimStart rest
    if rest = [] then (Except.error (ctx.directiveErr (("define").toList) full), ctx)
    else
      let name := rest.takeWhile (fun c => rustIsAlphanumeric c || c == '_')
      let afterName := rest.dropWhile (fun c => rustIsAlphanumeric c || c == '_')
      if name = [] then (Except.error (ctx.directiveErr (("define").toList) full), ctx)
      else
        let afterWs := afterName.dropWhile rustIsWhitespace
        let parsed : Except PErr (Option (List (List Char)) × Bool × List Char) :=
          match afterWs with
          | '(' :: inner =>
            match defineParamsLoop (inner.length + 1) [] [] false inner with
            | none => Except.error (ctx.directiveErr (("define").toList) full)
            | some (ps, isVar, body) => Except.ok (some ps, isVar, body)
          | _ => Except.ok (none, false, afterWs)
        match parsed with
        | Except.error e => (Except.error e, ctx)
        | Except.ok (params, isVar, bodyStr) =>
          let strippedBody := trimBoth (stripComments bodyStr)
          let bodyTokens := tokenizeLine strippedBody
          let mac : MacroDef :=
            { params := params
              body := bodyTokens
              isVariadic := isVar
              definitionLocation := some (ctx.currentFile, ctx.currentLine)
              isBuiltin := false }
          (Except.ok none, { ctx with macros := mapInsert ctx.macros name mac })

/-- driver.rs `handle_undef`. -/
def handleUndef (ctx : Context) (rest full : List Char) : PRes (Option (List Char)) :=
  if !canEmitLine ctx then (Except.ok none, ctx)
  else
    match splitWs rest with
    | [] => (Except.error (ctx.directiveErr (("undef").toList) full), ctx)
    | name :: _ =>
      (Except.ok none, { ctx with macros := mapRemove ctx.macros name })

/-- driver.rs `handle_ifdef`: push a frame, active iff the name is defined. -/
def handleIfdef (ctx : Context) (rest : List Char) : Context :=
  let name := trimBoth rest
  { ctx with conditionalStack :=
      ConditionalState.ifState (ctx.isDefinedM name) :: ctx.conditionalStack }

/-- driver.rs `handle_ifndef`. -/
def handleIfndef (ctx : Context) (rest : List Char) : Context :=
  let name := trimBoth rest
  { ctx with conditionalStack :=
      ConditionalState.ifState (!ctx.isDefinedM name) :: ctx.conditionalStack }

/-- driver.rs `handle_else`: the new branch is active exactly when the top
frame was an inactive `If` or `Elif`. -/
def handleElse (ctx : Context) (full : List Char) : PRes (Option (List Char)) :=
  match ctx.conditionalStack with
  | [] => (Except.error (ctx.conditionalErr (("#else without #if").toList) full), ctx)
  | top :: rest =>
    let isActive :=
      match top with
      | ConditionalState.ifState false => true
      | ConditionalState.elifState false => true
      | _ => false
    (Except.ok none,
      { ctx with conditionalStack := ConditionalState.elseState isActive :: rest })

/-- driver.rs `handle_endif`. -/
def handleEndif (ctx : Context) (full : List Char) : PRes (Option (List Char)) :=
  match ctx.conditionalStack with
  | [] => (Except.error (ctx.conditionalErr (("#endif without #if").toList) full), ctx)
  | _ :: rest => (Except.ok none, { ctx with conditionalStack := rest })

/-- driver.rs `handle_error`: fatal only on an active branch. -/
def handleError (ctx : Context) (rest full : List Char) : PRes (Option (List Char)) :=
  if canEmitLine ctx then
    let msg :=
      if rest = [] then ("#error directive").toList
      else ("#error: ").toList ++ rest
    (Except.error (ctx.genericErr msg full), ctx)
  else (Except.ok none, ctx)

/-- driver.rs `handle_warning`: invokes the warning callback for GCC/Clang on
active branches; no engine state is mutated, so the context passes through. -/
def handleWarning (ctx : Context) (rest : List Char) : Context :=
  let _active := canEmitLine ctx &&
    (ctx.compiler == Compiler.gcc || ctx.compiler == Compiler.clang)
  let _msg :=
    if rest = [] then ("#warning directive").toList
    else ("#warning: ").toList ++ rest
  ctx

/-- driver.rs `handle_line`: set `current_line` to the parsed number minus
one (saturating) and optionally `current_file`; a first token that fails to
parse as `usize` leaves the state unchanged; an empty argument list is a
`MalformedDirective` error. -/
def handleLine (ctx : Context) (rest full : List Char) : PRes (Option (List Char)) :=
  if !canEmitLine ctx then (Except.ok none, ctx)
  else
    match splitWs rest with
    | [] => (Except.error (ctx.directiveErr (("line").toList) full), ctx)
    | p0 :: ps =>
      match parseUsizeRust p0 with
      | none => (Except.ok none, ctx)
      | some n =>
        let ctx := { ctx with currentLine := n - 1, currentColumn := 1 }
        match ps with
        | [] => (Except.ok none, ctx)
        | filename :: _ =>
          let filename :=
            match filename with
            | '"' :: stripped =>
              match stripped.reverse with
              | '"' :: revRest => revRest.reverse
              | _ => stripped
            | _ => filename
          (Except.ok none, { ctx with currentFile := filename })

/-- driver.rs `handle_pragma`: `#pragma once` records the current file in
`included_once`; note there is no `can_emit_line` guard here. -/
def handlePragma (ctx : Context) (rest : List Char) : Context :=
  if trimBoth rest = ("once").toList then
    { ctx with includedOnce := setInsert ctx.includedOnce ctx.currentFile }
  else ctx

/-- The `splitn(2, char::is_whitespace)` of driver.rs `handle_directive`:
the command word and the trimmed remainder. -/
def splitDirective (directive : List Char) : List Char × List Char :=
  let cmd := directive.takeWhile (fun c => !rustIsWhitespace c)
  let restPart := directive.dropWhile (fun c => !rustIsWhitespace c)
  (cmd, trimBoth (restPart.drop 1))

/-- The argument parse of driver.rs `handle_include`: a quoted or
angle-bracketed path with its include kind. -/
def parseIncludeSpec (trimmed : List Char) : Option (List Char × IncludeKind) :=
  if startsWithS trimmed (['"']) && trimmed.getLast? = some '"' && 2 ≤ trimmed.length then
    some ((trimmed.drop 1).dropLast, IncludeKind.localKind)
  else if startsWithS trimmed (['<']) && trimmed.getLast? = some '>' &&
      2 ≤ trimmed.length then
    some ((trimmed.drop 1).dropLast, IncludeKind.systemKind)
  else none

/-!
The macro expander and the driver loop.  In Rust these are mutually
recursive methods of `PreprocessorDriver`; the only recursion edges are
`expand_tokens` calling itself at `depth + 1` through its helpers, and
`process` calling itself through `handle_include` for nested includes.  The
embedding breaks the mutual knots by passing the recursive reference
explicitly (`next` for `expand_tokens`, `proc` for `process`) and by fueling
those two functions; inner loops over tokens, body tokens or lines recurse
structurally (or on a local fuel instantiated above the list length, where
it cannot run out).  These parameters are termination artifacts of the
embedding; the bodies mirror driver.rs.
-/

/-- The shape of the recursive reference to driver.rs `expand_tokens`
threaded through the expander helpers. -/
abbrev ExpandFn := Context → List Token → Nat → List Char → PRes (List Token)

/-- The `__VA_ARGS__` splice loop of driver.rs `replace_macro_parameters`:
expand each remaining variadic argument and separate them with single comma
tokens (`remaining` is the variadic tail `args[params.len()..]`). -/
def spliceVA (next : ExpandFn) (ctx : Context) (remaining : List (List Token))
    (depth : Nat) (acc : List Token) (full : List Char) : PRes (List Token) :=
  match remaining with
  | [] => (Except.ok acc, ctx)
  | arg :: rest =>
    match next ctx arg (depth + 1) full with
    | (Except.error e, c) => (Except.error e, c)
    | (Except.ok expanded, c) =>
      let acc' := acc ++ expanded ++ (if rest ≠ [] then [Token.other [',']] else [])
      spliceVA next c rest depth acc' full

/-- The body walk of driver.rs `replace_macro_parameters`: stringification,
parameter splice (with the argument expanded at the next depth),
`__VA_ARGS__` splice, verbatim copy.  Indexing `args` out of range is a Rust
panic. -/
def replaceGo (next : ExpandFn) (lfuel : Nat) (ctx : Context) (ps : List (List Char))
    (isVar : Bool) (args : List (List Token)) (body : List Token) (depth : Nat)
    (acc : List Token) (full : List Char) : PRes (List Token) :=
  match lfuel with
  | 0 => (Except.error (fuelErr ctx), ctx)
  | lfuel + 1 =>
    match body with
    | [] => (Except.ok acc, ctx)
    | t :: rest =>
      match t with
      | Token.other s =>
        if trimBoth s = ['#'] then
          match rest with
          | Token.identifier id :: rest2 =>
            match ps.indexOf? id with
            | some pos =>
              match args.get? pos with
              | some arg =>
                replaceGo next lfuel ctx ps isVar args rest2 depth
                  (acc ++ [Token.stringLiteral ('"' :: escapeArg arg ++ ['"'])]) full
              | none => (Except.error (panicErr ctx (("args index").toList)), ctx)
            | none =>
              replaceGo next lfuel ctx ps isVar args rest depth
                (acc ++ [Token.other s]) full
          | _ =>
            replaceGo next lfuel ctx ps isVar args rest depth
              (acc ++ [Token.other s]) full
        else replaceGo next lfuel ctx ps isVar args rest depth (acc ++ [t]) full
      | Token.identifier id =>
        match ps.indexOf? id with
        | some pos =>
          match args.get? pos with
          | some arg =>
            match next ctx arg (depth + 1) full with
            | (Except.error e, c) => (Except.error e, c)
            | (Except.ok expanded, c) =>
              replaceGo next lfuel c ps isVar args rest depth (acc ++ expanded) full
          | none => (Except.error (panicErr ctx (("args index").toList)), ctx)
        | none =>
          if id = ("__VA_ARGS__").toList && isVar then
            match spliceVA next ctx (args.drop ps.length) depth acc full with
            | (Except.error e, c) => (Except.error e, c)
            | (Except.ok acc', c) =>
              replaceGo next lfuel c ps isVar args rest depth acc' full
          else
            replaceGo next lfuel ctx ps isVar args rest depth
              (acc ++ [Token.identifier id]) full
      | _ => replaceGo next lfuel ctx ps isVar args rest depth (acc ++ [t]) full

/-- driver.rs `replace_macro_parameters`.  The body walk consumes at least
one body token per step, so its loop fuel never runs out. -/
def replaceMacroParameters (next : ExpandFn) (ctx : Context) (mac : MacroDef)
    (args : List (List Token)) (depth : Nat) (full : List Char) : PRes (List Token) :=
  match mac.params with
  | none => (Except.ok mac.body, ctx)
  | some ps =>
    replaceGo next (mac.body.length + 1) ctx ps mac.isVariadic args mac.body depth [] full

/-- driver.rs `handle_object_like_macro`: paste the body, expand at the next
depth, append to the output. -/
def handleObjectLike (next : ExpandFn) (ctx : Context) (mac : MacroDef) (depth : Nat)
    (out : List Token) (full : List Char) : PRes (List Token) :=
  match next ctx (applyTokenPasting mac.body) (depth + 1) full with
  | (Except.error e, c) => (Except.error e, c)
  | (Except.ok expanded, c) => (Except.ok (out ++ expanded), c)

/-- driver.rs `handle_function_like_macro`: parse the arguments, substitute
the parameters (with the macro disabled), paste, re-expand, and finally
insert the macro name into `disabled_macros` again (without a matching
removal) before returning. -/
def handleFunctionLike (next : ExpandFn) (ctx : Context) (mac : MacroDef)
    (name : List Char) (tokens : List Token) (i depth : Nat) (out : List Token)
    (full : List Char) : PRes (Nat × List Token) :=
  match findParenIdx tokens i with
  | none => (Except.ok (i + 1, out), ctx)
  | some parenIdx =>
    match parseMacroArgumentsD ctx tokens parenIdx full with
    | Except.error e => (Except.error e, ctx)
    | Except.ok (args, endIdx) =>
      let c1 := { ctx with disabledMacros := setInsert ctx.disabledMacros name }
      match replaceMacroParameters next c1 mac args (depth + 1) full with
      | (Except.error e, c2) => (Except.error e, c2)
      | (Except.ok substituted, c2) =>
        let c3 := { c2 with disabledMacros := setRemove c2.disabledMacros name }
        match next c3 (applyTokenPasting substituted) (depth + 1) full with
        | (Except.error e, c4) => (Except.error e, c4)
        | (Except.ok expanded, c4) =>
          (Except.ok (endIdx, out ++ expanded),
            { c4 with disabledMacros := setInsert c4.disabledMacros name })

/-- driver.rs `handle_macro_invocation`: a function-like macro followed (past
whitespace) by `(` is a function-like invocation; otherwise — including for a
function-like macro NOT followed by `(` — the macro body is expanded as for an
object-like macro, guarded by insertion into and removal from
`disabled_macros` (the removal is skipped on the error path, as by the Rust
`?` operator). -/
def handleMacroInvocation (next : ExpandFn) (ctx : Context) (mac : MacroDef)
    (name : List Char) (tokens : List Token) (i depth : Nat) (out : List Token)
    (full : List Char) : PRes (Nat × List Token) :=
  if mac.params.isSome && isFunctionLikeInvocation tokens i then
    handleFunctionLike next ctx mac name tokens i depth out full
  else
    let c1 := { ctx with disabledMacros := setInsert ctx.disabledMacros name }
    match handleObjectLike next c1 mac depth out full with
    | (Except.error e, c2) => (Except.error e, c2)
    | (Except.ok out', c2) =>
      (Except.ok (i + 1, out'),
        { c2 with disabledMacros := setRemove c2.disabledMacros name })

/-- The token loop of driver.rs `expand_tokens`.  The index strictly
increases at every step, so the loop fuel (instantiated above the token
count) never runs out. -/
def expandGo (next : ExpandFn) (lfuel : Nat) (ctx : Context) (tokens : List Token)
    (i depth : Nat) (out : List Token) (full : List Char) : PRes (List Token) :=
  match lfuel with
  | 0 => (Except.error (fuelErr ctx), ctx)
  | lfuel + 1 =>
    match tokens.get? i with
    | none => (Except.ok out, ctx)
    | some t =>
      match t with
      | Token.identifier name =>
        match expandPredefined ctx name with
        | some tk => expandGo next lfuel ctx tokens (i + 1) depth (out ++ [tk]) full
        | none =>
          if mapContainsKey ctx.macros name && !ctx.disabledMacros.contains name then
            match mapGet ctx.macros name with
            | some mac =>
              match handleMacroInvocation next ctx mac name tokens i depth out full with
              | (Except.error e, c) => (Except.error e, c)
              | (Except.ok (k, out'), c) => expandGo next lfuel c tokens k depth out' full
            | none => expandGo next lfuel ctx tokens (i + 1) depth (out ++ [t]) full
          else expandGo next lfuel ctx tokens (i + 1) depth (out ++ [t]) full
      | _ => expandGo next lfuel ctx tokens (i + 1) depth (out ++ [t]) full

/-- driver.rs `expand_tokens`: fail when the depth exceeds the recursion
limit, otherwise run the token loop; nested expansions go through the
recursive reference at one unit of fuel less. -/
def expandTokens : Nat → Context → List Token → Nat → List Char → PRes (List Token)
  | 0, ctx, _, _, _ => (Except.error (fuelErr ctx), ctx)
  | fuel + 1, ctx, tokens, depth, full =>
    if ctx.recursionLimit < depth then
      (Except.error
        ((PErr.mk' (ErrKind.recursionLimitExceeded (("too deep").toList))
            ctx.currentFile ctx.currentLine).withSourceLine full), ctx)
    else expandGo (expandTokens fuel) (tokens.length + 1) ctx tokens 0 depth [] full

/-- driver.rs `evaluate_expression`: tokenize and macro-expand the whole
expression text; if the expanded trimmed text starts with `defined`, decide
the directive as a single definedness test of the identifier between the
first parenthesis pair (or after `defined`); otherwise run the
recursive-descent evaluator. -/
def evaluateExpression (fuel : Nat) (ctx : Context) (expr full : List Char) :
    PRes Bool :=
  match expandTokens fuel ctx (tokenizeLine expr) 0 full with
  | (Except.error e, c) => (Except.error e, c)
  | (Except.ok expanded, c) =>
    let trimmed := trimBoth (tokensToString expanded)
    if trimmed = ("defined").toList || startsWithS trimmed (("defined").toList) then
      match findChr trimmed '(', findChr trimmed ')' with
      | some st, some en =>
        if st + 1 ≤ en then
          let identifier := trimBoth ((trimmed.drop (st + 1)).take (en - (st + 1)))
          (Except.ok (c.isDefinedM identifier), c)
        else (Except.error (panicErr c (("slice out of range").toList)), c)
      | _, _ =>
        let identifier := trimBoth (trimmed.drop 7)
        (Except.ok (c.isDefinedM identifier), c)
    else
      match parseExpressionB c full trimmed with
      | Except.error e => (Except.error e, c)
      | Except.ok b => (Except.ok b, c)

/-- driver.rs `handle_if`: evaluate the expression (with no `can_emit_line`
guard) and push a frame with its value. -/
def handleIf (fuel : Nat) (ctx : Context) (rest full : List Char) :
    PRes (Option (List Char)) :=
  match evaluateExpression fuel ctx rest full with
  | (Except.error e, c) => (Except.error e, c)
  | (Except.ok v, c) =>
    (Except.ok none,
      { c with conditionalStack := ConditionalState.ifState v :: c.conditionalStack })

/-- driver.rs `handle_elif`: illegal on an empty stack; otherwise evaluate
the expression (unconditionally) and overwrite the top frame with
`Elif(value)`. -/
def handleElif (fuel : Nat) (ctx : Context) (rest full : List Char) :
    PRes (Option (List Char)) :=
  if ctx.conditionalStack = [] then
    (Except.error (ctx.conditionalErr (("#elif without #if").toList) full), ctx)
  else
    match evaluateExpression fuel ctx rest full with
    | (Except.error e, c) => (Except.error e, c)
    | (Except.ok v, c) =>
      match c.conditionalStack with
      | [] => (Except.ok none, c)
      | _ :: restStack =>
        (Except.ok none,
          { c with conditionalStack := ConditionalState.elifState v :: restStack })

/-- The shape of the recursive reference to driver.rs `process` used by
`handle_include` for the nested include. -/
abbrev ProcessFn := Context → List Char → PRes (List Char)

/-- The fresh nested driver that driver.rs `handle_include` constructs for
the included file: shared macros, resolver, limits and include data, with
cleared expansion and conditional state and the path as current file. -/
def nestedFromParent (parent : Context) (p : List Char) : Context :=
  { macros := parent.macros
    includeResolver := parent.includeResolver
    recursionLimit := parent.recursionLimit
    includedOnce := parent.includedOnce
    includeStack := parent.includeStack
    disabledMacros := []
    conditionalStack := []
    currentLine := 1
    currentColumn := 1
    currentFile := p
    compiler := parent.compiler
    formattedDate := parent.formattedDate
    formattedTime := parent.formattedTime }

/-- The tail of driver.rs `handle_include` after the nested `process` call
returns: an error propagates with the pushed parent context (the `?`
operator pops nothing); on success the pushed entry is popped, the macro
table of the nested run is adopted, and `#pragma once` content records the
path in `included_once`. -/
def includeFinish (ctxPushed : Context) (p content : List Char)
    (pr : PRes (List Char)) : PRes (Option (List Char)) :=
  match pr with
  | (Except.error e, _) => (Except.error e, ctxPushed)
  | (Except.ok processed, nestedFinal) =>
    let parent :=
      { ctxPushed with
          includeStack := ctxPushed.includeStack.tail
          macros := nestedFinal.macros }
    let parent :=
      if containsSubstr content (("#pragma once").toList) then
        { parent with includedOnce := setInsert parent.includedOnce p }
      else parent
    (Except.ok (some processed), parent)

/-- driver.rs `handle_include`.  On the error path of the nested `process`
call the `?` operator propagates immediately: the entry pushed onto the
parent include stack is not popped. -/
def handleInclude (proc : ProcessFn) (ctx : Context) (rest full : List Char) :
    PRes (Option (List Char)) :=
  if !canEmitLine ctx then (Except.ok none, ctx)
  else
    match parseIncludeSpec (trimBoth rest) with
    | none => (Except.error (ctx.directiveErr (("include").toList) full), ctx)
    | some (p, kind) =>
      match ctx.includeResolver with
      | none => (Except.error (ctx.includeErr p full), ctx)
      | some resolver =>
        match resolver p kind ⟨ctx.includeStack, []⟩ with
        | none => (Except.error (ctx.includeErr p full), ctx)
        | some content =>
          if ctx.includeStack.contains p then
            (Except.error
              (ctx.genericErr
                (("Include cycle detected for '").toList ++ p ++ ['\'']) full), ctx)
          else if containsSubstr content (("#pragma once").toList) &&
              ctx.includedOnce.contains p then
            (Except.ok (some []), ctx)
          else
            let ctxPushed :=
              { ctx with includeStack := ctx.currentFile :: ctx.includeStack }
            let nested : Context := nestedFromParent ctxPushed p
            includeFinish ctxPushed p content (proc nested content)

/-- driver.rs `handle_directive`: dispatch on the first word. -/
def handleDirective (proc : ProcessFn) (fuel : Nat) (ctx : Context)
    (directive full : List Char) : PRes (Option (List Char)) :=
  let (cmd, rest) := splitDirective directive
  if cmd = ("define").toList then handleDefine ctx rest full
  else if cmd = ("undef").toList then handleUndef ctx rest full
  else if cmd = ("include").toList then handleInclude proc ctx rest full
  else if cmd = ("ifdef").toList then (Except.ok none, handleIfdef ctx rest)
  else if cmd = ("ifndef").toList then (Except.ok none, handleIfndef ctx rest)
  else if cmd = ("if").toList then handleIf fuel ctx rest full
  else if cmd = ("elif").toList then handleElif fuel ctx rest full
  else if cmd = ("else").toList then handleElse ctx full
  else if cmd = ("endif").toList then handleEndif ctx full
  else if cmd = ("error").toList then handleError ctx rest full
  else if cmd = ("warning").toList then (Except.ok none, handleWarning ctx rest)
  else if cmd = ("line").toList then handleLine ctx rest full
  else if cmd = ("pragma").toList then (Except.ok none, handlePragma ctx rest)
  else (Except.ok none, ctx)

/-- The per-line loop of driver.rs `process`. -/
def processGo (proc : ProcessFn) (fuel : Nat) (ctx : Context) (ls : List (List Char))
    (out : List (List Char)) : PRes (List (List Char)) :=
  match ls with
  | [] => (Except.ok out, ctx)
  | line :: rest =>
    let ctx1 := { ctx with currentColumn := 1 }
    match extractDirective line with
    | some directive =>
      match handleDirective proc fuel ctx1 directive line with
      | (Except.error e, c) => (Except.error e, c)
      | (Except.ok none, c) =>
        processGo proc fuel { c with currentLine := c.currentLine + 1 } rest out
      | (Except.ok (some content), c) =>
        processGo proc fuel { c with currentLine := c.currentLine + 1 } rest
          (out ++ [content])
    | none =>
      if canEmitLine ctx1 then
        match expandTokens fuel ctx1 (tokenizeLine line) 0 line with
        | (Except.error e, c) => (Except.error e, c)
        | (Except.ok expanded, c) =>
          processGo proc fuel { c with currentLine := c.currentLine + 1 } rest
            (out ++ [tokensToString expanded])
      else processGo proc fuel { ctx1 with currentLine := ctx1.currentLine + 1 } rest out

/-- driver.rs `process`: splice lines, rewrite `_Pragma`, clear the
conditional stack, reset the line counter, run the per-line loop, fail on an
unterminated conditional, and join the emitted lines with newlines.  The
fuel bounds the include-nesting and macro-expansion depth. -/
def process : Nat → Context → List Char → PRes (List Char)
  | 0, ctx, _ => (Except.error (fuelErr ctx), ctx)
  | fuel + 1, ctx, input =>
    let spliced := lineSplice input
    let pragmaProcessed := processPragma spliced
    let ctx0 := { ctx with conditionalStack := [], currentLine := 1, currentColumn := 1 }
    match processGo (process fuel) fuel ctx0 (rustLines pragmaProcessed) [] with
    | (Except.error e, c) => (Except.error e, c)
    | (Except.ok outLines, c) =>
      if c.conditionalStack ≠ [] then
        (Except.error
          (c.conditionalErr (("unterminated #if/#ifdef/#ifndef").toList)
            (("<end of input>").toList)), c)
      else (Except.ok (joinNl outLines), c)


/-!
Concrete contexts used to instantiate the claim theorems: a context with a
single one-parameter macro `F(x) = x`, a context with the object-like macros
`A` and `B`, contexts carrying an include resolver for the path `h.h`, and
contexts with a prepared conditional stack.
-/

/-- A context in which `F(x)` is defined with body `x`. -/
def ctxF : Context :=
  { Context.new with
      macros := [((("F").toList),
        { params := some [("x").toList]
          body := [Token.identifier (("x").toList)]
          isVariadic := false
          definitionLocation := none
          isBuiltin := false })] }

/-- A context in which the object-like macros `A` and `B` are defined as `1`. -/
def ctxAB : Context :=
  { Context.new with
      macros := [((("A").toList),
        { params := none
          body := [Token.other (("1").toList)]
          isVariadic := false
          definitionLocation := none
          isBuiltin := false }),
        ((("B").toList),
        { params := none
          body := [Token.other (("1").toList)]
          isVariadic := false
          definitionLocation := none
          isBuiltin := false })] }

/-- A resolver mapping `h.h` to a file consisting of a stray `#endif`, on
which the nested `process` call fails. -/
def res2 : Resolver := fun p _ _ =>
  if p = ("h.h").toList then some (("#endif").toList) else none

/-- A context (current file `main.c`) using `res2`. -/
def ctx2 : Context :=
  { Context.new with includeResolver := some res2, currentFile := ("main.c").toList }

/-- A resolver mapping `h.h` to the well-formed file `int a;`. -/
def res2b : Resolver := fun p _ _ =>
  if p = ("h.h").toList then some (("int a;").toList) else none

/-- A context (current file `main.c`) using `res2b`. -/
def ctx2b : Context :=
  { Context.new with includeResolver := some res2b, currentFile := ("main.c").toList }

/-- A context whose conditional stack holds one active `If` frame. -/
def ctxC3 : Context :=
  { Context.new with conditionalStack := [ConditionalState.ifState true] }

/-- A context whose conditional stack holds one inactive `If` frame, so that
`can_emit_line` is false. -/
def ctxC4 : Context :=
  { Context.new with conditionalStack := [ConditionalState.ifState false] }

/-- The macro `ADD(a, b)` with body `((a)+(b))`. -/
def macAdd : MacroDef :=
  { params := some [("a").toList, ("b").toList]
    body := tokenizeLine (("((a)+(b))").toList)
    isVariadic := false
    definitionLocation := none
    isBuiltin := false }

/-- A context in which `ADD` is bound to `macAdd`. -/
def ctxC6 : Context :=
  { Context.new with macros := [((("ADD").toList), macAdd)] }

/-- `ctxC6` with `ADD` disabled, as `handle_macro_invocation` builds it before
delegating to the object-like handler. -/
def ctxC6ins : Context :=
  { ctxC6 with disabledMacros := setInsert ctxC6.disabledMacros (("ADD").toList) }

/-- The token line `ADD ;`, an occurrence of `ADD` not followed by `(`. -/
def c6tokens : List Token :=
  [Token.identifier (("ADD").toList), Token.other ([';'])]

/-- The context in which the per-line loop of `process` finishes after the
two plain lines `int a;` and `int b;`: the line counter has advanced to 3
and everything else is as in the fresh context. -/
def c9ctx : Context :=
  { Context.new with currentLine := 3 }


/-!
Helper lemmas about the token-pasting primitives, used by the claim theorems
below.
-/

theorem trimBoth_of_allWs {s : List Char} (h : s.all rustIsWhitespace = true) :
    trimBoth s = [] := by
  have h1 : trimStart s = [] := by
    simp only [trimStart, List.dropWhile_eq_nil_iff]
    intro x hx
    exact (List.all_eq_true.mp h) x hx
  simp [trimBoth, h1, trimEnd]

theorem isHashHash_of_ws {t : Token} (h : isWsTok t = true) : isHashHash t = false := by
  cases t with
  | other s =>
    simp only [isWsTok] at h
    simp [isHashHash, trimBoth_of_allWs h]
  | identifier s => rfl
  | stringLiteral s => rfl
  | charLiteral s => rfl

theorem pasteGo_ws_append (w : List Token) (rest acc : List Token) (fuel : Nat)
    (hw : ∀ t ∈ w, isWsTok t = true) :
    applyTokenPastingGo (fuel + w.length) acc (w ++ rest) =
      applyTokenPastingGo fuel (acc ++ w) rest := by
  induction w generalizing acc with
  | nil => simp
  | cons t w' ih =>
    have ht : isWsTok t = true := hw t (List.mem_cons_self t w')
    have hh : isHashHash t = false := isHashHash_of_ws ht
    have hsucc : fuel + (t :: w').length = (fuel + w'.length) + 1 := by
      simp [List.length_cons]
      omega
    rw [hsucc, List.cons_append, applyTokenPastingGo, hh]
    simp only [Bool.false_eq_true, if_false]
    rw [ih (acc ++ [t]) (fun x hx => hw x (List.mem_cons_of_mem t hx))]
    simp

theorem findPrevNonWsIdx_of_allWs {w : List Token} (hw : ∀ t ∈ w, isWsTok t = true) :
    findPrevNonWsIdx w = none := by
  induction w with
  | nil => rfl
  | cons t w' ih =>
    have ht : isWsTok t = true := hw t (List.mem_cons_self t w')
    rw [findPrevNonWsIdx, ih (fun x hx => hw x (List.mem_cons_of_mem t hx)), ht]
    rfl

theorem findPrevNonWsIdx_head {l : Token} {w : List Token} (hl : isWsTok l = false)
    (hw : ∀ t ∈ w, isWsTok t = true) : findPrevNonWsIdx (l :: w) = some 0 := by
  rw [findPrevNonWsIdx, findPrevNonWsIdx_of_allWs hw, hl]
  rfl

theorem dropWhile_ws_append {w xs : List Token} (hw : ∀ t ∈ w, isWsTok t = true) :
    (w ++ xs).dropWhile isWsTok = xs.dropWhile isWsTok := by
  induction w with
  | nil => rfl
  | cons t w' ih =>
    have ht : isWsTok t = true := hw t (List.mem_cons_self t w')
    rw [List.cons_append, List.dropWhile_cons, ht]
    exact ih (fun x hx => hw x (List.mem_cons_of_mem t hx))

theorem dropTrailingWsToks_head {l : Token} {w : List Token} (hl : isWsTok l = false)
    (hw : ∀ t ∈ w, isWsTok t = true) : dropTrailingWsToks (l :: w) = [l] := by
  have hrev : ∀ t ∈ w.reverse, isWsTok t = true := by
    intro t ht
    exact hw t (List.mem_reverse.mp ht)
  rw [dropTrailingWsToks, List.reverse_cons, dropWhile_ws_append hrev,
    List.dropWhile_cons, hl]
  simp

theorem splitNextNonWs_ws_append {w : List Token} {r : Token}
    (hw : ∀ t ∈ w, isWsTok t = true) (hr : isWsTok r = false) :
    splitNextNonWs (w ++ [r]) = some (r, []) := by
  induction w with
  | nil => simp [splitNextNonWs, hr]
  | cons t w' ih =>
    have ht : isWsTok t = true := hw t (List.mem_cons_self t w')
    rw [List.cons_append, splitNextNonWs, ht]
    simp only [if_true]
    exact ih (fun x hx => hw x (List.mem_cons_of_mem t hx))

/-- C8: For every token sequence after parameter substitution, an
`Other("##")` token with a non-whitespace token on each side (ignoring
intervening whitespace tokens) is replaced by the concatenation of the two
neighbouring tokens, and `concatenate_tokens` classifies the result as
`Identifier` exactly when the concatenated text is a valid C identifier,
otherwise as `Other`. -/
theorem c8_token_pasting_concatenation (l r : Token) (w1 w2 : List Token)
    (hl : isWsTok l = false) (hr : isWsTok r = false)
    (hw1 : ∀ t ∈ w1, isWsTok t = true) (hw2 : ∀ t ∈ w2, isWsTok t = true) :
    applyTokenPasting
        (l :: w1 ++ Token.other ['#', '#'] :: (w2 ++ [r])) = [concatenateTokens l r] ∧
    (isValidIdentifier (tokenText l ++ tokenText r) = true →
      concatenateTokens l r = Token.identifier (tokenText l ++ tokenText r)) ∧
    (isValidIdentifier (tokenText l ++ tokenText r) = false →
      concatenateTokens l r = Token.other (tokenText l ++ tokenText r)) := by
  refine ⟨?_, ?_, ?_⟩
  · have hlen : (l :: w1 ++ Token.other ['#', '#'] :: (w2 ++ [r])).length + 1 =
        (((w2.length + 3) + w1.length) + 1) := by
      simp [List.length_append, List.length_cons]
      omega
    have step1 : applyTokenPasting (l :: w1 ++ Token.other ['#', '#'] :: (w2 ++ [r])) =
        applyTokenPastingGo ((w2.length + 3) + w1.length) [l]
          (w1 ++ Token.other ['#', '#'] :: (w2 ++ [r])) := by
      rw [applyTokenPasting, hlen]
      by_cases hh : isHashHash l = true
      · rw [List.cons_append, applyTokenPastingGo, hh]
        simp [findPrevNonWsIdx]
      · rw [List.cons_append, applyTokenPastingGo, if_neg hh]
        simp
    rw [step1, pasteGo_ws_append w1 _ [l] (w2.length + 3) hw1]
    have hsucc : w2.length + 3 = (w2.length + 2) + 1 := rfl
    rw [hsucc, applyTokenPastingGo]
    have hhh : isHashHash (Token.other ['#', '#']) = true := by decide
    rw [hhh]
    simp only [if_true]
    rw [List.singleton_append, findPrevNonWsIdx_head hl hw1,
      dropTrailingWsToks_head hl hw1]
    rw [splitNextNonWs_ws_append hw2 hr]
    simp [applyTokenPastingGo]
  · intro h
    simp [concatenateTokens, h]
  · intro h
    simp [concatenateTokens, h]

/-- C10: For every active `#line` directive whose first whitespace-delimited
argument does not parse as an unsigned number, `handle_line` succeeds and
leaves the context (in particular `current_line` and `current_file`)
unchanged; a `MalformedDirective` error for `line` is produced exactly when
the directive has no argument at all. -/
theorem c10_line_directive_bad_number_is_noop (ctx : Context) (rest full : List Char)
    (hc : canEmitLine ctx = true) :
    (∀ p ps, splitWs rest = p :: ps → parseUsizeRust p = none →
      handleLine ctx rest full = (Except.ok none, ctx)) ∧
    (splitWs rest = [] →
      handleLine ctx rest full =
        (Except.error (ctx.directiveErr (("line").toList) full), ctx)) := by
  constructor
  · intro p ps hsplit hparse
    rw [handleLine, hc]
    simp only [Bool.not_true, Bool.false_eq_true, if_false]
    rw [hsplit]
    dsimp only
    rw [hparse]
  · intro hsplit
    rw [handleLine, hc]
    simp only [Bool.not_true, Bool.false_eq_true, if_false]
    rw [hsplit]

/-- Witness for C10 at `#line abc`: the argument `abc` does not parse as a
number, the handler succeeds and the context is unchanged. -/
theorem c10_witness :
    (canEmitLine Context.new = true ∧
      splitWs (("abc").toList) = [("abc").toList] ∧
      parseUsizeRust (("abc").toList) = none) ∧
    handleLine Context.new (("abc").toList) (("#line abc").toList) =
      (Except.ok none, Context.new) :=
  ⟨⟨by decide, by decide, by decide⟩,
    (c10_line_directive_bad_number_is_noop Context.new (("abc").toList)
        (("#line abc").toList) (by decide)).1 (("abc").toList) [] (by decide) (by decide)⟩

set_option maxRecDepth 8000

/-- C1: the claimed invariant — `disabled_macros` is empty whenever a
top-level `expand_tokens` call returns — fails in the code.  A successful
top-level expansion of the call `F(y)` of the function-like macro `F(x) = x`
returns with `F` still recorded in `disabled_macros`, because
`handle_function_like_macro` re-inserts the macro name after the final
re-expansion without a matching removal; as a consequence, a second call of
the same function-like macro later in the same run is not expanded, as the
three-line `MAKE_ID` program shows. -/
theorem c1_disabled_macros_nonempty_after_top_level_expansion :
    (expandTokens 8 ctxF
        [Token.identifier (("F").toList), Token.other (['(']),
          Token.identifier (("y").toList), Token.other ([')'])] 0
        (("F(y)").toList)).1 = Except.ok [Token.identifier (("y").toList)] ∧
    (expandTokens 8 ctxF
        [Token.identifier (("F").toList), Token.other (['(']),
          Token.identifier (("y").toList), Token.other ([')'])] 0
        (("F(y)").toList)).2.disabledMacros = [("F").toList] ∧
    (process 16 Context.new
        (("#define MAKE_ID(x) id_##x\nint id_1 = MAKE_ID(1);\nint id_2 = MAKE_ID(2);").toList)).1 =
      Except.ok (("int id_1 = id_1;\nint id_2 = MAKE_ID(2);").toList) :=
  ⟨by decide, by decide, by decide⟩

/-- C2 counterexample: when the nested `process` call fails (the included
file `h.h` is a stray `#endif`), `handle_include` propagates the error with
the entry `main.c` still pushed on the include stack, which was empty before
the call — the stack is not restored on the error path. -/
theorem c2_error_path_counterexample :
    (handleInclude (process 8) ctx2 (("\"h.h\"").toList)
        (("#include \"h.h\"").toList)).1.isOk = false ∧
    (handleInclude (process 8) ctx2 (("\"h.h\"").toList)
        (("#include \"h.h\"").toList)).2.includeStack = [("main.c").toList] ∧
    ctx2.includeStack = [] :=
  ⟨by decide, by decide, by decide⟩

/-- On a successful result of `includeFinish`, the resulting include stack is
the tail of the pushed context, whatever the nested run returned. -/
theorem includeFinish_stack_on_success (cp : Context) (p content : List Char)
    (pr : PRes (List Char)) (r : Option (List Char))
    (h : (includeFinish cp p content pr).1 = Except.ok r) :
    (includeFinish cp p content pr).2.includeStack = cp.includeStack.tail := by
  rcases pr with ⟨res, nf⟩
  cases res with
  | error e => simp [includeFinish] at h
  | ok processed =>
    simp only [includeFinish]
    split <;> rfl

/-- C2 (amended): whenever `handle_include` returns successfully, the include
stack of the resulting context equals the include stack of the context it was
given — the restoration guarantee holds on the success path only. -/
theorem c2_include_stack_restored_on_success
    (proc : ProcessFn) (ctx : Context) (rest full : List Char) (r : Option (List Char))
    (h : (handleInclude proc ctx rest full).1 = Except.ok r) :
    (handleInclude proc ctx rest full).2.includeStack = ctx.includeStack := by
  revert h
  unfold handleInclude
  repeat' split
  all_goals intro h
  all_goals first
    | rfl
    | (dsimp only at h ⊢
       exact (includeFinish_stack_on_success _ _ _ _ _ h).trans (by simp))

/-- Witness for C2 at a resolver mapping `h.h` to the well-formed file
`int a;`: the handler succeeds and the include stack is restored. -/
theorem c2_witness :
    (handleInclude (process 8) ctx2b (("\"h.h\"").toList)
        (("#include \"h.h\"").toList)).1 = Except.ok (some (("int a;").toList)) ∧
    (handleInclude (process 8) ctx2b (("\"h.h\"").toList)
        (("#include \"h.h\"").toList)).2.includeStack = ctx2b.includeStack :=
  ⟨by decide,
    c2_include_stack_restored_on_success (process 8) ctx2b (("\"h.h\"").toList)
      (("#include \"h.h\"").toList) (some (("int a;").toList)) (by decide)⟩

/-- C3 counterexample: in `#if 1 ... #elif 1 ... #endif` the second branch is
ALSO emitted — `handle_elif` ignores whether an earlier branch of the block
was taken, so the claimed behaviour (only the first branch emitted) fails. -/
theorem c3_second_branch_also_taken_counterexample :
    (process 16 Context.new (("#if 1\nA\n#elif 1\nB\n#endif").toList)).1 =
      Except.ok (("A\nB").toList) := by decide

/-- C3 (amended): with a non-empty conditional stack, `handle_elif` always
evaluates its expression — there is no `any_branch_taken` bookkeeping — and
overwrites the top frame with `Elif(v)` where `v` is the value of the
expression; an evaluation error is propagated unchanged. -/
theorem c3_elif_reevaluates_unconditionally
    (fuel : Nat) (ctx : Context) (rest full : List Char)
    (hne : ctx.conditionalStack ≠ []) :
    (∀ v c t ts, evaluateExpression fuel ctx rest full = (Except.ok v, c) →
        c.conditionalStack = t :: ts →
        handleElif fuel ctx rest full =
          (Except.ok none,
            { c with conditionalStack := ConditionalState.elifState v :: ts })) ∧
    (∀ e c, evaluateExpression fuel ctx rest full = (Except.error e, c) →
        handleElif fuel ctx rest full = (Except.error e, c)) := by
  constructor
  · intro v c t ts he hs
    unfold handleElif
    rw [if_neg hne]
    simp only [he, hs]
  · intro e c he
    unfold handleElif
    rw [if_neg hne]
    simp only [he]

/-- Witness for C3 at `#elif 1` over the stack `[If(true)]`: the expression
is evaluated (to true) and the top frame becomes `Elif(true)`. -/
theorem c3_witness :
    ctxC3.conditionalStack ≠ [] ∧
    handleElif 4 ctxC3 (("1").toList) (("#elif 1").toList) =
      (Except.ok none,
        { ctxC3 with conditionalStack := [ConditionalState.elifState true] }) :=
  ⟨by decide,
    (c3_elif_reevaluates_unconditionally 4 ctxC3 (("1").toList) (("#elif 1").toList)
        (by decide)).1 true ctxC3 (ConditionalState.ifState true) [] (by rfl) (by rfl)⟩

/-- C4 counterexample: a `#if 1/0` nested inside the inactive branch of
`#if 0` IS evaluated and makes `process` fail with a division-by-zero error —
contrary to the claim that controlling expressions in inactive branches are
not evaluated. -/
theorem c4_inactive_if_expression_error_counterexample :
    (process 16 Context.new (("#if 0\n#if 1/0\n#endif\n#endif").toList)).1 =
      Except.error ⟨ErrKind.otherError (("Division by zero").toList), ("<stdin>").toList,
        2, some 8, some (("#if 1/0").toList)⟩ := by decide

/-- C4 (amended): `handle_if` evaluates its expression with no
`can_emit_line` guard (pushing a frame on success and propagating evaluation
errors even inside inactive branches), while with `can_emit_line` false the
define/undef/error/line/include handlers are no-ops; `handle_pragma` has no
guard at all, so `#pragma once` in an inactive branch still records the
current file. -/
theorem c4_inactive_branch_directive_behaviour
    (ctx : Context) (rest full : List Char) (h : canEmitLine ctx = false) :
    (∀ fuel v c, evaluateExpression fuel ctx rest full = (Except.ok v, c) →
        handleIf fuel ctx rest full =
          (Except.ok none,
            { c with conditionalStack :=
                ConditionalState.ifState v :: c.conditionalStack })) ∧
    (∀ fuel e c, evaluateExpression fuel ctx rest full = (Except.error e, c) →
        handleIf fuel ctx rest full = (Except.error e, c)) ∧
    handleDefine ctx rest full = (Except.ok none, ctx) ∧
    handleUndef ctx rest full = (Except.ok none, ctx) ∧
    handleError ctx rest full = (Except.ok none, ctx) ∧
    handleLine ctx rest full = (Except.ok none, ctx) ∧
    (∀ proc, handleInclude proc ctx rest full = (Except.ok none, ctx)) ∧
    (trimBoth rest = ("once").toList →
        handlePragma ctx rest =
          { ctx with includedOnce := setInsert ctx.includedOnce ctx.currentFile }) := by
  refine ⟨?_, ?_, ?_, ?_, ?_, ?_, ?_, ?_⟩
  · intro fuel v c he
    unfold handleIf
    simp only [he]
  · intro fuel e c he
    unfold handleIf
    simp only [he]
  · unfold handleDefine
    simp [h]
  · unfold handleUndef
    simp [h]
  · unfold handleError
    simp [h]
  · unfold handleLine
    simp [h]
  · intro proc
    unfold handleInclude
    simp [h]
  · intro hp
    unfold handlePragma
    rw [if_pos hp]

/-- Witness for C4 over the stack `[If(false)]` (so `can_emit_line` is
false): `#if` still evaluates and pushes a frame, the guarded handlers are
no-ops, and `#pragma once` records the current file. -/
theorem c4_witness :
    canEmitLine ctxC4 = false ∧
    handleIf 4 ctxC4 (("once").toList) (("#pragma once").toList) =
      (Except.ok none,
        { ctxC4 with conditionalStack :=
            ConditionalState.ifState false :: ctxC4.conditionalStack }) ∧
    handleDefine ctxC4 (("once").toList) (("#pragma once").toList) =
      (Except.ok none, ctxC4) ∧
    handleUndef ctxC4 (("once").toList) (("#pragma once").toList) =
      (Except.ok none, ctxC4) ∧
    handleError ctxC4 (("once").toList) (("#pragma once").toList) =
      (Except.ok none, ctxC4) ∧
    handleLine ctxC4 (("once").toList) (("#pragma once").toList) =
      (Except.ok none, ctxC4) ∧
    handleInclude (process 4) ctxC4 (("once").toList) (("#pragma once").toList) =
      (Except.ok none, ctxC4) ∧
    handlePragma ctxC4 (("once").toList) =
      { ctxC4 with includedOnce := setInsert ctxC4.includedOnce ctxC4.currentFile } := by
  have h := c4_inactive_branch_directive_behaviour ctxC4 (("once").toList)
    (("#pragma once").toList) (by decide)
  exact ⟨by decide, h.1 4 false ctxC4 (by rfl), h.2.2.1, h.2.2.2.1, h.2.2.2.2.1,
    h.2.2.2.2.2.1, h.2.2.2.2.2.2.1 (process 4), h.2.2.2.2.2.2.2 (by decide)⟩

/-- C5 counterexample: with both `A` and `B` defined (as `1`), the directive
expression `defined(A) && defined(B)` evaluates to false — the `defined`
operands are macro-expanded first (giving `defined(1)`), and the whole
expression is then decided as a single definedness test of `1`, so `defined`
does not combine with other operators as the claim states. -/
theorem c5_defined_operand_counterexample :
    ctxAB.isDefinedM (("A").toList) = true ∧
    ctxAB.isDefinedM (("B").toList) = true ∧
    (evaluateExpression 8 ctxAB (("defined(A) && defined(B)").toList)
        (("#if defined(A) && defined(B)").toList)).1 = Except.ok false :=
  ⟨by decide, by decide, by decide⟩

/-- C5 (amended): the expression text is macro-expanded in full — `defined`
operands included — and an expanded text that starts with `defined` is
decided as one definedness test of the identifier between the first
parenthesis pair, discarding any further operators; `defined` deeper in the
expression is an ordinary identifier for the expression lexer, which yields 0
for an undefined name and an `Expected identifier after defined(` error when
the operand expanded to a number. -/
theorem c5_defined_handling_amended :
    (evaluateExpression 8 ctxAB (("defined(A)").toList)
        (("#if defined(A)").toList)).1 = Except.ok false ∧
    (evaluateExpression 8 Context.new (("defined(A) || 1").toList)
        (("#if defined(A) || 1").toList)).1 = Except.ok false ∧
    (evaluateExpression 8 Context.new (("1 && defined(B)").toList)
        (("#if 1 && defined(B)").toList)).1 = Except.ok false ∧
    (evaluateExpression 8 ctxAB (("1 && defined(B)").toList)
        (("#if 1 && defined(B)").toList)).1 =
      Except.error ⟨ErrKind.otherError (("Expected identifier after defined(").toList),
        ("<stdin>").toList, 1, some 20, some (("#if 1 && defined(B)").toList)⟩ :=
  ⟨by decide, by decide, by decide, by decide⟩

/-- C6 counterexample: an occurrence of the function-like macro `ADD` that is
not followed by `(` is NOT left unexpanded — its body is substituted without
arguments, so `ADD;` becomes `((a)+(b));`. -/
theorem c6_no_paren_still_expanded_counterexample :
    (process 16 Context.new (("#define ADD(a,b) ((a)+(b))\nADD;").toList)).1 =
      Except.ok (("((a)+(b));").toList) := by decide

/-- C6 (amended): when a function-like macro name is not followed (past
whitespace) by `(`, `handle_macro_invocation` falls through to the
object-like path: the (parameter-unsubstituted) body is pasted and expanded
with the macro temporarily disabled, and the index advances past the name. -/
theorem c6_function_like_without_paren_expands_body
    (next : ExpandFn) (ctx : Context) (mac : MacroDef) (name : List Char)
    (tokens : List Token) (i depth : Nat) (out out2 : List Token) (full : List Char)
    (c2 : Context)
    (hinv : isFunctionLikeInvocation tokens i = false)
    (hobj : handleObjectLike next
        { ctx with disabledMacros := setInsert ctx.disabledMacros name } mac depth out full
        = (Except.ok out2, c2)) :
    handleMacroInvocation next ctx mac name tokens i depth out full =
      (Except.ok (i + 1, out2),
        { c2 with disabledMacros := setRemove c2.disabledMacros name }) := by
  unfold handleMacroInvocation
  simp only [hinv, Bool.and_false, Bool.false_eq_true, if_false]
  simp only [hobj]

/-- Witness for C6 at the line `ADD ;` with `ADD(a, b) = ((a)+(b))`: the
name is not a function-like invocation, and the invocation handler expands
the body. -/
theorem c6_witness :
    isFunctionLikeInvocation c6tokens 0 = false ∧
    handleMacroInvocation (expandTokens 4) ctxC6 macAdd (("ADD").toList) c6tokens 0 0 []
        (("ADD;").toList) =
      (Except.ok (1, tokenizeLine (("((a)+(b))").toList)),
        { ctxC6ins with disabledMacros := setRemove ctxC6ins.disabledMacros (("ADD").toList) }) :=
  ⟨by decide,
    c6_function_like_without_paren_expands_body (expandTokens 4) ctxC6 macAdd
      (("ADD").toList) c6tokens 0 0 [] (tokenizeLine (("((a)+(b))").toList))
      (("ADD;").toList) ctxC6ins (by decide) (by rfl)⟩

/-- C7 counterexample: a call of the two-parameter macro `ADD` with three
arguments is NOT reported as an argument-count mismatch — the extra argument
is silently dropped and `process` succeeds. -/
theorem c7_extra_arguments_silently_dropped_counterexample :
    (process 16 Context.new
        (("#define ADD(a,b) ((a)+(b))\nint z = ADD(1,2,3);").toList)).1 =
      Except.ok (("int z = ((1)+(2));").toList) := by decide

/-- C7 (amended): `parse_macro_arguments` performs no count validation — a
one-parameter macro called with three arguments expands using the first
argument only — and the only `MacroArgMismatch` error it produces is for an
unterminated argument list (no closing parenthesis before end of line). -/
theorem c7_argument_count_not_validated :
    (process 16 Context.new (("#define F(a) (a)\nF(1,2,3);").toList)).1 =
      Except.ok (("(1);").toList) ∧
    (process 16 Context.new (("#define F(a) (a)\nF(1").toList)).1 =
      Except.error ⟨ErrKind.macroArgMismatch (("unterminated macro arguments").toList),
        ("<stdin>").toList, 2, none, some (("F(1").toList)⟩ :=
  ⟨by decide, by decide⟩

/-- C9 counterexample: the output of a successful `process` run is NOT
terminated by a trailing newline — a one-line input comes back unchanged with
its final `;`, and the empty input produces empty (not newline-terminated)
output. -/
theorem c9_trailing_newline_counterexample :
    (process 16 Context.new (("int x = 1;").toList)).1 =
      Except.ok (("int x = 1;").toList) ∧
    (process 16 Context.new ([])).1 = Except.ok [] :=
  ⟨by decide, by decide⟩

/-- The single-line splitter never returns the empty list of segments. -/
theorem splitOnNl_ne_nil (l : List Char) : splitOnNl l ≠ [] := by
  induction l with
  | nil => simp [splitOnNl]
  | cons c rest ih =>
    by_cases hc : c = '\n'
    · subst hc
      simp [splitOnNl]
    · simp only [splitOnNl, hc]
      split <;> simp

/-- A newline-free string is a single segment for `splitOnNl`. -/
theorem splitOnNl_no_nl (a : List Char) (h : ∀ c ∈ a, c ≠ '\n') :
    splitOnNl a = [a] := by
  induction a with
  | nil => rfl
  | cons c rest ih =>
    have hc : c ≠ '\n' := h c (by simp)
    have hr : splitOnNl rest = [rest] := ih (fun x hx => h x (by simp [hx]))
    simp only [splitOnNl, hc, hr]

/-- Splitting after appending a newline and a newline-free segment appends
exactly that one segment. -/
theorem splitOnNl_append_nl (l x : List Char) (hx : ∀ c ∈ x, c ≠ '\n') :
    splitOnNl (l ++ '\n' :: x) = splitOnNl l ++ [x] := by
  induction l with
  | nil => simp [splitOnNl, splitOnNl_no_nl x hx]
  | cons c rest ih =>
    by_cases hc : c = '\n'
    · subst hc
      simp only [List.cons_append, splitOnNl]
      exact congrArg (List.cons []) ih
    · obtain ⟨h0, t0, hsplit⟩ : ∃ h0 t0, splitOnNl rest = h0 :: t0 := by
        cases hq : splitOnNl rest with
        | nil => exact absurd hq (splitOnNl_ne_nil rest)
        | cons a b => exact ⟨a, b, rfl⟩
      simp only [List.cons_append, splitOnNl, hc, ih, hsplit, List.cons_append]

/-- The `join`-fold of newline-separated segments, split again, recovers the
starting segments after whatever the accumulator splits to. -/
theorem joinNl_foldl_split (ls : List (List Char)) (l : List Char)
    (hls : ∀ x ∈ ls, ∀ c ∈ x, c ≠ '\n') :
    splitOnNl (ls.foldl (fun acc x => acc ++ '\n' :: x) l) = splitOnNl l ++ ls := by
  induction ls generalizing l with
  | nil => simp
  | cons x ls2 ih =>
    have hx : ∀ c ∈ x, c ≠ '\n' := hls x (by simp)
    have hrest : ∀ y ∈ ls2, ∀ c ∈ y, c ≠ '\n' := fun y hy => hls y (by simp [hy])
    simp only [List.foldl_cons]
    rw [ih (l ++ '\n' :: x) hrest, splitOnNl_append_nl l x hx]
    simp

/-- C9 (amended): a successful `process` run returns exactly `joinNl` of the
emitted-lines list of its own per-line loop — lines joined by a single
newline with nothing appended.  `joinNl` is the plain separator join:
splitting its result on newlines recovers the emitted lines exactly (a
trailing newline would add an extra empty segment), and a trailing newline
in the join can arise only from an extra empty emitted line. -/
theorem c9_output_is_plain_newline_join :
    (∀ fuel ctx input outLines c,
        processGo (process fuel) fuel
            { ctx with conditionalStack := [], currentLine := 1, currentColumn := 1 }
            (rustLines (processPragma (lineSplice input))) [] = (Except.ok outLines, c) →
        c.conditionalStack = [] →
        process (fuel + 1) ctx input = (Except.ok (joinNl outLines), c)) ∧
    (∀ ls, ls ≠ [] → (∀ x ∈ ls, ∀ ch ∈ x, ch ≠ '\n') → splitOnNl (joinNl ls) = ls) ∧
    (∀ ls, ls ≠ [] → joinNl (ls ++ [[]]) = joinNl ls ++ ['\n']) := by
  refine ⟨?_, ?_, ?_⟩
  · intro fuel ctx input outLines c hpg hcs
    simp [process, hpg, hcs]
  · intro ls hne h
    cases ls with
    | nil => exact absurd rfl hne
    | cons l ls2 =>
      simp only [joinNl]
      rw [joinNl_foldl_split ls2 l (fun x hx => h x (by simp [hx])),
        splitOnNl_no_nl l (h l (by simp))]
      simp
  · intro ls hne
    cases ls with
    | nil => exact absurd rfl hne
    | cons l ls2 =>
      simp [joinNl, List.foldl_append]

/-- Witness for C9 at the two-line input `int a;` and `int b;`: `process`
returns exactly the newline-join of the two emitted lines, and splitting
that join recovers the two lines (so no trailing newline was appended). -/
theorem c9_witness :
    process 16 Context.new (("int a;\nint b;").toList) =
      (Except.ok (joinNl [("int a;").toList, ("int b;").toList]), c9ctx) ∧
    splitOnNl (joinNl [("int a;").toList, ("int b;").toList]) =
      [("int a;").toList, ("int b;").toList] :=
  ⟨c9_output_is_plain_newline_join.1 15 Context.new (("int a;\nint b;").toList)
      [("int a;").toList, ("int b;").toList] c9ctx (by rfl) (by rfl),
    (c9_output_is_plain_newline_join.2.1) [("int a;").toList, ("int b;").toList]
      (by decide) (by decide)⟩

/-- Witness for C8 at `x ## 1`: pasting the identifier `x` with the number
`1` yields the single identifier token `x1`. -/
theorem c8_witness :
    (isWsTok (Token.identifier (("x").toList)) = false ∧
      isWsTok (Token.other (("1").toList)) = false) ∧
    applyTokenPasting
        [Token.identifier (("x").toList), Token.other (['#', '#']),
          Token.other (("1").toList)] =
      [Token.identifier (("x1").toList)] :=
  ⟨⟨by decide, by decide⟩, by
    have h := (c8_token_pasting_concatenation (Token.identifier (("x").toList))
        (Token.other (("1").toList)) [] [] (by decide) (by decide)
        (by simp) (by simp)).1
    exact h.trans (by decide)⟩

end Includium
